import Mathlib

/-!
Verification of the soltnet transaction codec core:
a shallow embedding of `src/tx_format/{params,pubkey,data_format,parse_tx}.rs`
together with theorems about the packer/unpacker round trip, byte-length
accounting, parameter and address resolution, and the decompiler's
signer-placeholder substitution.

JSON values are modelled by an inductive type whose objects are
key-sorted association lists, mirroring `serde_json::Map` (a `BTreeMap`
in its default configuration).  Machine integers are `Nat`/`Int` with
explicit `% 2^w` where the Rust code casts.  Fallible functions return
`Except String` carrying the `anyhow!` message of the source; functions
that can genuinely diverge in the source (`parse_pubkey`, `pack_data`)
take a fuel parameter and return `Option (Except String _)`, `none`
standing for non-termination within the given fuel.

Behaviour of external crates that the core merely calls through
(`Pubkey::find_program_address`, `String::from_utf8_lossy`, base64, and
`serde_json::from_str`) is abstracted into an `Ext` record of total
functions; base58 and hex, which several claims evaluate concretely, are
implemented faithfully.
-/

/-- serde_json values.  Objects are key-sorted association lists with
unique keys (BTreeMap semantics); numbers are modelled as integers,
which covers every number this codebase constructs or inspects. -/
inductive Json where
  | null : Json
  | bool : Bool → Json
  | num : Int → Json
  | str : String → Json
  | arr : List Json → Json
  | obj : List (String × Json) → Json
deriving Repr

/-- Rust `String` ordering (byte-wise lexicographic; on UTF-8 this equals
code-point lexicographic order), as a computable comparison. -/
def charListLt : List Char → List Char → Bool
  | [], [] => false
  | [], _ :: _ => true
  | _ :: _, [] => false
  | a :: as_, b :: bs =>
    if a.toNat < b.toNat then true
    else if b.toNat < a.toNat then false
    else charListLt as_ bs

def strLt (a b : String) : Bool := charListLt a.data b.data

namespace Json

/-- `serde_json::Map::get`: first binding of the key. -/
def mapGet : List (String × Json) → String → Option Json
  | [], _ => none
  | (k', v) :: rest, k => if k' = k then some v else mapGet rest k

/-- `serde_json::Map::insert` on a key-sorted association list:
replaces the binding if the key is present, otherwise inserts in
key order (BTreeMap semantics, Rust `String` ordering). -/
def mapInsert : List (String × Json) → String → Json → List (String × Json)
  | [], k, v => [(k, v)]
  | (k', v') :: rest, k, v =>
    if strLt k k' then (k, v) :: (k', v') :: rest
    else if k = k' then (k, v) :: rest
    else (k', v') :: mapInsert rest k v

/-- `Value::as_str`. -/
def as_str : Json → Option String
  | str s => some s
  | _ => none

/-- `Value::as_array`. -/
def as_array : Json → Option (List Json)
  | arr l => some l
  | _ => none

/-- `Value::as_object`. -/
def as_object : Json → Option (List (String × Json))
  | obj m => some m
  | _ => none

/-- `Number::as_u64` (via `Value::as_u64`): the integer if it is in
`u64` range. -/
def as_u64 : Json → Option Nat
  | num n => if 0 ≤ n ∧ n < 2 ^ 64 then some n.toNat else none
  | _ => none

/-- `Number::as_i64`: the integer if it is in `i64` range. -/
def as_i64 : Json → Option Int
  | num n => if -(2 ^ 63) ≤ n ∧ n < 2 ^ 63 then some n else none
  | _ => none

end Json

/-- Decidable equality for `Json` (Rust `PartialEq` on `Value`). -/
def Json.beq : Json → Json → Bool
  | .null, .null => true
  | .bool a, .bool b => a = b
  | .num a, .num b => a = b
  | .str a, .str b => a = b
  | .arr a, .arr b => beqList a b
  | .obj a, .obj b => beqMap a b
  | _, _ => false
where
  beqList : List Json → List Json → Bool
    | [], [] => true
    | a :: as_, b :: bs => Json.beq a b && beqList as_ bs
    | _, _ => false
  beqMap : List (String × Json) → List (String × Json) → Bool
    | [], [] => true
    | (ka, va) :: as_, (kb, vb) :: bs => ka = kb && Json.beq va vb && beqMap as_ bs
    | _, _ => false

mutual
theorem Json.beq_refl : ∀ a : Json, Json.beq a a = true
  | .null => rfl
  | .bool x => by simp [Json.beq]
  | .num x => by simp [Json.beq]
  | .str x => by simp [Json.beq]
  | .arr x => by simpa [Json.beq] using Json.beqList_refl x
  | .obj x => by simpa [Json.beq] using Json.beqMap_refl x

theorem Json.beqList_refl : ∀ l : List Json, Json.beq.beqList l l = true
  | [] => rfl
  | a :: as_ => by simp [Json.beq.beqList, Json.beq_refl a, Json.beqList_refl as_]

theorem Json.beqMap_refl : ∀ l : List (String × Json), Json.beq.beqMap l l = true
  | [] => rfl
  | (k, v) :: as_ => by simp [Json.beq.beqMap, Json.beq_refl v, Json.beqMap_refl as_]
end

mutual
theorem Json.eq_of_beq : ∀ (a b : Json), Json.beq a b = true → a = b
  | a, b, h => by
    cases a <;> cases b <;>
      simp only [Json.beq, decide_eq_true_eq, Json.bool.injEq, Json.num.injEq,
        Json.str.injEq, Json.arr.injEq, Json.obj.injEq] at h ⊢
    all_goals first
      | exact h
      | exact Json.eqList_of_beq _ _ h
      | exact Json.eqMap_of_beq _ _ h
      | exact absurd h Bool.false_ne_true

theorem Json.eqList_of_beq : ∀ (l₁ l₂ : List Json), Json.beq.beqList l₁ l₂ = true → l₁ = l₂
  | [], [], _ => rfl
  | a :: as_, b :: bs, h => by
    simp only [Json.beq.beqList, Bool.and_eq_true] at h
    rw [Json.eq_of_beq a b h.1, Json.eqList_of_beq as_ bs h.2]
  | [], _ :: _, h => by simp [Json.beq.beqList] at h
  | _ :: _, [], h => by simp [Json.beq.beqList] at h

theorem Json.eqMap_of_beq :
    ∀ (l₁ l₂ : List (String × Json)), Json.beq.beqMap l₁ l₂ = true → l₁ = l₂
  | [], [], _ => rfl
  | (ka, va) :: as_, (kb, vb) :: bs, h => by
    simp only [Json.beq.beqMap, Bool.and_eq_true, decide_eq_true_eq] at h
    rw [h.1.1, Json.eq_of_beq va vb h.1.2, Json.eqMap_of_beq as_ bs h.2]
  | [], _ :: _, h => by simp [Json.beq.beqMap] at h
  | _ :: _, [], h => by simp [Json.beq.beqMap] at h
end

instance : DecidableEq Json := fun a b =>
  decidable_of_iff (Json.beq a b = true) ⟨Json.eq_of_beq a b, fun h => h ▸ Json.beq_refl a⟩

/-! ### Byte-level helpers: little-endian integers, hex, base58 -/

/-- `uN::to_le_bytes`: the `w` little-endian bytes of `v` (low byte first). -/
def leBytes : Nat → Nat → List Nat
  | 0, _ => []
  | w + 1, v => v % 256 :: leBytes w (v / 256)

/-- `uN::from_le_bytes`: read a little-endian byte list as a number. -/
def fromLeBytes : List Nat → Nat
  | [] => 0
  | b :: rest => b + 256 * fromLeBytes rest

/-- `buffer.get(offset..offset+len)` on a byte slice: the sub-slice when it
lies within bounds, `none` otherwise. -/
def sliceGet (buffer : List Nat) (offset len : Nat) : Option (List Nat) :=
  if offset + len ≤ buffer.length then some ((buffer.drop offset).take len) else none

/-- Value of a hex digit character, accepting both cases (`hex` crate). -/
def hexDigitVal (c : Char) : Option Nat :=
  if '0' ≤ c ∧ c ≤ '9' then some (c.toNat - '0'.toNat)
  else if 'a' ≤ c ∧ c ≤ 'f' then some (c.toNat - 'a'.toNat + 10)
  else if 'A' ≤ c ∧ c ≤ 'F' then some (c.toNat - 'A'.toNat + 10)
  else none

/-- `hex::decode`: pairs of hex digits to bytes; fails on an odd length or a
non-hex character. -/
def hexDecodeChars : List Char → Option (List Nat)
  | [] => some []
  | [_] => none
  | a :: b :: rest =>
    match hexDigitVal a, hexDigitVal b, hexDecodeChars rest with
    | some hi, some lo, some bytes => some ((hi * 16 + lo) :: bytes)
    | _, _, _ => none

def hex_decode (s : String) : Option (List Nat) :=
  hexDecodeChars s.data

/-- `hex::encode`: lowercase hex string of a byte list. -/
def hexDigitChar (d : Nat) : Char :=
  if d < 10 then Char.ofNat ('0'.toNat + d) else Char.ofNat ('a'.toNat + d - 10)

def hex_encode (bytes : List Nat) : String :=
  String.mk (bytes.foldr (fun b acc => hexDigitChar (b / 16 % 16) :: hexDigitChar (b % 16) :: acc) [])

/-- The Bitcoin base58 alphabet used by the `bs58` crate. -/
def BASE58_ALPHABET : List Char :=
  "123456789ABCDEFGHJKLMNPQRSTUVWXYZabcdefghijkmnopqrstuvwxyz".data

def b58DigitVal (c : Char) : Option Nat :=
  BASE58_ALPHABET.findIdx? (fun x => x = c)

/-- Big-endian byte representation of a natural number (no leading zeros). -/
def natToBytesBE (n : Nat) : List Nat :=
  if n = 0 then [] else natToBytesBE (n / 256) ++ [n % 256]
decreasing_by exact Nat.div_lt_self (Nat.pos_of_ne_zero (by assumption)) (by omega)

/-- Base-58 digits of a natural number (no leading zeros, most significant
first). -/
def natToB58 (n : Nat) : List Nat :=
  if n = 0 then [] else natToB58 (n / 58) ++ [n % 58]
decreasing_by exact Nat.div_lt_self (Nat.pos_of_ne_zero (by assumption)) (by omega)

/-- `bs58::decode(...).into_vec()`: fails on any character outside the
alphabet; leading `'1'` digits become leading zero bytes. -/
def bs58_decode (s : String) : Option (List Nat) :=
  let cs := s.data
  if cs.all (fun c => (b58DigitVal c).isSome) then
    let n := cs.foldl (fun acc c => acc * 58 + (b58DigitVal c).getD 0) 0
    let zeros := (cs.takeWhile (fun c => c = '1')).length
    some (List.replicate zeros 0 ++ natToBytesBE n)
  else none

/-- `bs58::encode`: leading zero bytes become `'1'` digits. -/
def bs58_encode (bytes : List Nat) : String :=
  let zeros := (bytes.takeWhile (fun b => b = 0)).length
  let n := bytes.foldl (fun acc b => acc * 256 + b) 0
  String.mk (List.replicate zeros '1' ++ (natToB58 n).map (fun d => BASE58_ALPHABET.getD d '1'))

/-! ### Pubkeys and well-known program ids (`src/accounts.rs`) -/

/-- `solana_sdk::pubkey::Pubkey`: a 32-byte address. -/
structure Pubkey where
  bytes : List Nat
  len32 : bytes.length = 32

theorem Pubkey.eq_iff (p q : Pubkey) : p = q ↔ p.bytes = q.bytes := by
  cases p; cases q; simp

instance : DecidableEq Pubkey := fun p q =>
  decidable_of_iff _ (Pubkey.eq_iff p q).symm

/-- `Pubkey::to_string`: the base58 form of the 32 bytes. -/
def Pubkey.to_string (p : Pubkey) : String := bs58_encode p.bytes

/-- `Pubkey::from_str`: base58-decode and require exactly 32 bytes. -/
def Pubkey.from_str (s : String) : Option Pubkey :=
  match bs58_decode s with
  | some bs => if h32 : bs.length = 32 then some ⟨bs, h32⟩ else none
  | none => none

/-- `Pubkey::from_str_const` on a compile-time constant; the fallback arm is
unreachable for the valid constants below. -/
def pubkeyFromStrConst (s : String) : Pubkey :=
  match Pubkey.from_str s with
  | some p => p
  | none => ⟨List.replicate 32 0, by simp⟩

def COMPUTE_BUDGET_PROGRAM_ID : Pubkey :=
  pubkeyFromStrConst "ComputeBudget111111111111111111111111111111"
def SYSTEM_PROGRAM_ID : Pubkey :=
  pubkeyFromStrConst "11111111111111111111111111111111"
def TOKEN_PROGRAM_ID : Pubkey :=
  pubkeyFromStrConst "TokenkegQfeZyiNwAJbNbGKPFXCWuBvf9Ss623VQ5DA"
def ASSOCIATED_TOKEN_PROGRAM_ID : Pubkey :=
  pubkeyFromStrConst "ATokenGPvbdGVxr1b2hvZbsiqW5xWH25efTNsLJA8knL"

/-! ### External collaborators

Behaviour the core only calls through: PDA derivation (`solana_sdk`),
lossy UTF-8 decoding (`std`), base64 (`base64` crate, `STANDARD` engine)
and `serde_json::from_str`.  Each is a total function; theorems quantify
over all of them. -/
structure Libs where
  /-- `Pubkey::find_program_address(seeds, program_id).0`. -/
  find_program_address : List (List Nat) → Pubkey → Pubkey
  /-- `String::from_utf8_lossy`. -/
  from_utf8_lossy : List Nat → String
  /-- `STANDARD.decode`. -/
  base64_decode : String → Option (List Nat)
  /-- `STANDARD.encode`. -/
  base64_encode : List Nat → String
  /-- `serde_json::from_str::<Value>`. -/
  json_from_str : String → Option Json

/-! ### Parameter resolver (`src/tx_format/params.rs`) -/

/-- Rust `char::is_ascii_digit` (codepoints 48-57). -/
def isAsciiDigit (c : Char) : Bool := 48 ≤ c.toNat && c.toNat ≤ 57

/-- Rust `str::parse::<u64>` / `::<usize>` (64-bit target): an optional
leading `'+'`, then one or more ASCII digits, value within `u64` range. -/
def rustParseU64 (s : String) : Option Nat :=
  let cs := match s.data with
    | '+' :: rest => rest
    | cs => cs
  if cs ≠ [] ∧ cs.all isAsciiDigit then
    let n := cs.foldl (fun acc c => acc * 10 + (c.toNat - '0'.toNat)) 0
    if n < 2 ^ 64 then some n else none
  else none

/-- Rust `str::parse::<i64>`: optional sign, digits, `i64` range. -/
def rustParseI64 (s : String) : Option Int :=
  let sign : Int := match s.data with
    | '-' :: _ => -1
    | _ => 1
  let cs := match s.data with
    | '+' :: rest => rest
    | '-' :: rest => rest
    | cs => cs
  if cs ≠ [] ∧ cs.all isAsciiDigit then
    let n : Int := sign * (cs.foldl (fun acc c => acc * 10 + (c.toNat - '0'.toNat)) 0 : Nat)
    if -(2 ^ 63) ≤ n ∧ n < 2 ^ 63 then some n else none
  else none

/-- `param_index` (`params.rs:3-12`): strip a `'$'`, parse the rest as a
`usize`, and return the 0-based index when the value is positive. -/
def param_index (value : String) : Option Nat :=
  match value.data with
  | '$' :: stripped =>
    match rustParseU64 (String.mk stripped) with
    | some index => if index > 0 then some (index - 1) else none
    | none => none
  | _ => none

/-- `resolve_value` (`params.rs:14-23`). -/
def resolve_value (value : Json) (params : List String) : Json :=
  match value with
  | Json.str s =>
    (match param_index s with
     | some index =>
       match params.get? index with
       | some param => Json.str param
       | none => value
     | none => value)
  | _ => value

/-! ### Address resolver (`src/tx_format/pubkey.rs`)

`parse_pubkey` recurses through `resolve_value` on strings, which need
not terminate when the parameter list is cyclic, so the embedding takes
fuel; `none` means the recursion did not finish within the fuel. -/
def parse_pubkey (libs : Libs) :
    Nat → Json → List String → Option (Except String Pubkey)
  | 0, _, _ => none
  | fuel + 1, value, params =>
    match value with
    | Json.obj map =>
      (match (Json.mapGet map "type").bind Json.as_str with
       | none => some (Except.error "Unsupported pubkey object")
       | some kind =>
         if kind = "ata" then
           match Json.mapGet map "owner" with
           | none => some (Except.error "Missing owner for ata")
           | some owner =>
             match Json.mapGet map "mint" with
             | none => some (Except.error "Missing mint for ata")
             | some mint =>
               match parse_pubkey libs fuel owner params with
               | none => none
               | some (Except.error e) => some (Except.error e)
               | some (Except.ok owner) =>
                 match parse_pubkey libs fuel mint params with
                 | none => none
                 | some (Except.error e) => some (Except.error e)
                 | some (Except.ok mint) =>
                   some (Except.ok (libs.find_program_address
                     [owner.bytes, TOKEN_PROGRAM_ID.bytes, mint.bytes]
                     ASSOCIATED_TOKEN_PROGRAM_ID))
         else if kind = "compute_budget_program" then some (Except.ok COMPUTE_BUDGET_PROGRAM_ID)
         else if kind = "system_program" then some (Except.ok SYSTEM_PROGRAM_ID)
         else if kind = "token_program" then some (Except.ok TOKEN_PROGRAM_ID)
         else if kind = "associated_token_program" then some (Except.ok ASSOCIATED_TOKEN_PROGRAM_ID)
         else some (Except.error ("Unsupported pubkey type: " ++ kind)))
    | Json.str _ =>
      let resolved := resolve_value value params
      if resolved ≠ value then
        parse_pubkey libs fuel resolved params
      else
        (match resolved.as_str with
         | none => some (Except.error "Invalid pubkey value")
         | some s =>
           match Pubkey.from_str s with
           | some pk => some (Except.ok pk)
           | none => some (Except.error ("Invalid pubkey " ++ s)))
    | _ => some (Except.error "Unsupported pubkey value")

/-! ### Typed-value packer/unpacker (`src/tx_format/data_format.rs`) -/

/-- `MAX_SAFE_INTEGER` (`data_format.rs:7`). -/
def MAX_SAFE_INTEGER : Nat := 9007199254740991

/-- `parse_u64` (`data_format.rs:9-18`). -/
def parse_u64 (value : Json) : Except String Nat :=
  match value with
  | Json.num _ =>
    (match value.as_u64 with
     | some n => Except.ok n
     | none => Except.error "Invalid numeric value")
  | Json.str s =>
    (match rustParseU64 s with
     | some n => Except.ok n
     | none => Except.error "Invalid numeric string")
  | Json.bool b => Except.ok (if b then 1 else 0)
  | _ => Except.error "Unsupported numeric value"

/-- `parse_bool` (`data_format.rs:20-26`). -/
def parse_bool (value : Json) : Except String Bool :=
  match value with
  | Json.bool b => Except.ok b
  | Json.str s => Except.ok (s = "true")
  | _ => Except.error "Unsupported boolean value"

theorem Json.as_object_eq {j : Json} {m : List (String × Json)}
    (h : Json.as_object j = some m) : j = Json.obj m := by
  cases j <;> simp_all [Json.as_object]

theorem Json.as_array_eq {j : Json} {l : List Json}
    (h : Json.as_array j = some l) : j = Json.arr l := by
  cases j <;> simp_all [Json.as_array]

theorem Json.sizeOf_mapGet :
    ∀ {m : List (String × Json)} {k : String} {v : Json},
      Json.mapGet m k = some v → sizeOf v < sizeOf m := by
  intro m
  induction m with
  | nil => intro k v h; simp [Json.mapGet] at h
  | cons hd tl ih =>
    intro k v h
    obtain ⟨k', v'⟩ := hd
    simp only [Json.mapGet] at h
    split at h
    · cases h; simp; omega
    · have := ih h
      simp; omega

/-- sizeOf bound for the list found under a map's `"data"` key. -/
theorem sizeOf_data_list {m : List (String × Json)} {l : List Json}
    (h : (Json.mapGet m "data").bind Json.as_array = some l) :
    sizeOf l < sizeOf (Json.obj m) := by
  obtain ⟨d, hd, ha⟩ := Option.bind_eq_some.mp h
  have h1 := Json.sizeOf_mapGet hd
  have h2 : d = Json.arr l := Json.as_array_eq ha
  subst h2
  simp at h1 ⊢
  omega

mutual
/-- `get_byte_length` (`data_format.rs:272-307`): byte width of a decoded
typed-value entry. -/
def get_byte_length (entry : Json) : Except String Nat :=
  match hm : entry.as_object with
  | none => Except.error "Invalid entry"
  | some map =>
    match (Json.mapGet map "type").bind Json.as_str with
    | none => Except.error "Missing type"
    | some kind =>
      if kind = "u8" then Except.ok 1
      else if kind = "u16" then Except.ok 2
      else if kind = "u32" then Except.ok 4
      else if kind = "u64" then Except.ok 8
      else if kind = "boolean" then Except.ok 1
      else if kind = "pubkey" then Except.ok 32
      else if kind = "bytes" then
        match (Json.mapGet map "size").bind Json.as_u64 with
        | none => Except.error "Missing size"
        | some size => Except.ok size
      else if kind = "string" then
        match (Json.mapGet map "length").bind Json.as_u64 with
        | none => Except.error "Missing length"
        | some len => Except.ok len
      else if kind = "object" then
        match hd : (Json.mapGet map "data").bind Json.as_array with
        | none => Except.error "Missing object data"
        | some list => byteLengthList list
      else Except.error ("Unknown type for byte length: " ++ kind)
termination_by sizeOf entry
decreasing_by
  have := sizeOf_data_list hd
  have he := Json.as_object_eq hm
  subst he
  simpa using this

/-- The summation loop of `get_byte_length`'s `"object"` arm. -/
def byteLengthList : List Json → Except String Nat
  | [] => Except.ok 0
  | e :: rest =>
    match get_byte_length e with
    | Except.error err => Except.error err
    | Except.ok a =>
      match byteLengthList rest with
      | Except.error err => Except.error err
      | Except.ok b => Except.ok (a + b)
termination_by l => sizeOf l
end

theorem sliceGet_length {buffer : List Nat} {offset len : Nat} {bs : List Nat}
    (h : sliceGet buffer offset len = some bs) : bs.length = len := by
  unfold sliceGet at h
  split at h
  · cases h
    simp
    omega
  · cases h

/-- The output map of `unpack_data`'s `"object"` arm. -/
def objectOut (m : List (String × Json)) (out_list : List Json) : List (String × Json) :=
  let out0 := Json.mapInsert [] "type" (Json.str "object")
  let out1 :=
    match Json.mapGet m "name" with
    | some name => Json.mapInsert out0 "name" name
    | none => out0
  Json.mapInsert out1 "data" (Json.arr out_list)

/-! Per-kind bodies of `unpack_data` (`data_format.rs:164-247`), factored
out of the dispatch for the sake of manageable equations. -/

/-- The `"u8"` arm (`data_format.rs:165-169`). -/
def unpackU8 (buffer : List Nat) (schema_map : List (String × Json)) (offset : Nat) :
    Except String Json :=
  match buffer.get? offset with
  | none => Except.error "Out of bounds"
  | some b => Except.ok (Json.obj (Json.mapInsert schema_map "data" (Json.num b)))

/-- The `"u16"` arm (`data_format.rs:171-179`). -/
def unpackU16 (buffer : List Nat) (schema_map : List (String × Json)) (offset : Nat) :
    Except String Json :=
  match sliceGet buffer offset 2 with
  | none => Except.error "Out of bounds"
  | some bytes =>
    Except.ok (Json.obj (Json.mapInsert schema_map "data" (Json.num (fromLeBytes bytes))))

/-- The `"u32"` arm (`data_format.rs:180-188`). -/
def unpackU32 (buffer : List Nat) (schema_map : List (String × Json)) (offset : Nat) :
    Except String Json :=
  match sliceGet buffer offset 4 with
  | none => Except.error "Out of bounds"
  | some bytes =>
    Except.ok (Json.obj (Json.mapInsert schema_map "data" (Json.num (fromLeBytes bytes))))

/-- The `"u64"` arm (`data_format.rs:189-202`), with the `MAX_SAFE_INTEGER`
check. -/
def unpackU64 (buffer : List Nat) (schema_map : List (String × Json)) (offset : Nat) :
    Except String Json :=
  match sliceGet buffer offset 8 with
  | none => Except.error "Out of bounds"
  | some bytes =>
    let data := fromLeBytes bytes
    let data_value :=
      if data > MAX_SAFE_INTEGER then Json.str (toString data)
      else Json.num data
    Except.ok (Json.obj (Json.mapInsert schema_map "data" data_value))

/-- The `"boolean"` arm (`data_format.rs:203-208`). -/
def unpackBoolean (buffer : List Nat) (schema_map : List (String × Json)) (offset : Nat) :
    Except String Json :=
  match buffer.get? offset with
  | none => Except.error "Out of bounds"
  | some b => Except.ok (Json.obj (Json.mapInsert schema_map "data" (Json.bool (b ≠ 0))))

/-- The `"pubkey"` arm (`data_format.rs:209-217`). -/
def unpackPubkey (buffer : List Nat) (schema_map : List (String × Json)) (offset : Nat) :
    Except String Json :=
  match hs : sliceGet buffer offset 32 with
  | none => Except.error "Out of bounds"
  | some bytes =>
    Except.ok (Json.obj (Json.mapInsert schema_map "data"
      (Json.str (Pubkey.to_string ⟨bytes, sliceGet_length hs⟩))))

/-- The `"bytes"` arm (`data_format.rs:218-232`): reads the schema key
`"Size"` (capital S, as in the source) but writes back `"size"`. -/
def unpackBytes (libs : Libs) (buffer : List Nat) (schema_map : List (String × Json))
    (offset : Nat) : Except String Json :=
  match (Json.mapGet schema_map "Size").bind Json.as_u64 with
  | none => Except.error "Missing Size in bytes schema"
  | some size =>
    match sliceGet buffer offset size with
    | none => Except.error "Out of bounds"
    | some slice =>
      let data := libs.base64_encode slice
      Except.ok (Json.obj (Json.mapInsert
        (Json.mapInsert schema_map "size" (Json.num size)) "data" (Json.str data)))

/-- The `"string"` arm (`data_format.rs:233-247`). -/
def unpackString (libs : Libs) (buffer : List Nat) (schema_map : List (String × Json))
    (offset : Nat) : Except String Json :=
  match (Json.mapGet schema_map "length").bind Json.as_u64 with
  | none => Except.error "Missing Length in string schema"
  | some len =>
    match sliceGet buffer offset len with
    | none => Except.error "Out of bounds"
    | some slice =>
      let data := libs.from_utf8_lossy slice
      Except.ok (Json.obj (Json.mapInsert
        (Json.mapInsert schema_map "length" (Json.num len)) "data" (Json.str data)))

mutual
/-- `unpack_data` (`data_format.rs:144-270`): decode `buffer` at `offset`
against `schema`, echoing the schema's metadata and adding a `"data"`
field; dispatches on the schema's `"type"` to the per-kind arms above. -/
def unpack_data (libs : Libs) (buffer : List Nat) (schema : Json) (offset : Nat) :
    Except String Json :=
  match schema with
  | Json.arr entries =>
    (match unpackList libs buffer entries offset with
     | Except.error e => Except.error e
     | Except.ok out => Except.ok (Json.arr out))
  | Json.obj schema_map =>
      (match (Json.mapGet schema_map "type").bind Json.as_str with
       | none => Except.error "Missing type in schema"
       | some kind =>
         if kind = "u8" then unpackU8 buffer schema_map offset
         else if kind = "u16" then unpackU16 buffer schema_map offset
         else if kind = "u32" then unpackU32 buffer schema_map offset
         else if kind = "u64" then unpackU64 buffer schema_map offset
         else if kind = "boolean" then unpackBoolean buffer schema_map offset
         else if kind = "pubkey" then unpackPubkey buffer schema_map offset
         else if kind = "bytes" then unpackBytes libs buffer schema_map offset
         else if kind = "string" then unpackString libs buffer schema_map offset
         else if kind = "object" then
           match hd : (Json.mapGet schema_map "data").bind Json.as_array with
           | none => Except.error "Missing object data"
           | some list =>
             match unpackList libs buffer list offset with
             | Except.error e => Except.error e
             | Except.ok out_list => Except.ok (Json.obj (objectOut schema_map out_list))
         else Except.error ("Unknown type: " ++ kind))
  | _ => Except.error "Schema must be object or array"
termination_by sizeOf schema
decreasing_by
  · simp
  · simpa using sizeOf_data_list hd

/-- The cursor-threading loop shared by `unpack_data`'s array and
`"object"` arms (`data_format.rs:145-153` and `253-259`): each decoded
entry advances the cursor by `get_byte_length` of the *result*. -/
def unpackList (libs : Libs) (buffer : List Nat) (entries : List Json) (offset : Nat) :
    Except String (List Json) :=
  match entries with
  | [] => Except.ok []
  | e :: rest =>
    match unpack_data libs buffer e offset with
    | Except.error err => Except.error err
    | Except.ok res =>
      match get_byte_length res with
      | Except.error err => Except.error err
      | Except.ok len =>
        match unpackList libs buffer rest (offset + len) with
        | Except.error err => Except.error err
        | Except.ok out => Except.ok (res :: out)
termination_by sizeOf entries
end

/-- The per-element coercion loop of `pack_data`'s array arm
(`data_format.rs:55-78`): each entry is resolved, read as an `i64`, and
cast to a single byte (`as u8`, i.e. the low 8 bits in two's
complement). -/
def packArrayItems (params : List String) : List Json → Except String (List Nat)
  | [] => Except.ok []
  | item :: rest =>
    let item := resolve_value item params
    let entry : Except String Int :=
      match item with
      | Json.num _ =>
        (match item.as_i64 with
         | some v => Except.ok v
         | none => Except.error "Invalid array entry")
      | Json.str s =>
        (match rustParseI64 s with
         | some v => Except.ok v
         | none => Except.error "Invalid array entry")
      | Json.bool b => Except.ok (if b then 1 else 0)
      | _ => Except.error "Unsupported array entry"
    match entry with
    | Except.error e => Except.error e
    | Except.ok v =>
      match packArrayItems params rest with
      | Except.error e => Except.error e
      | Except.ok out => Except.ok ((v.emod 256).toNat :: out)

/-- Rust `text.trim_start().starts_with(c)`. -/
def trimStartHead (text : String) : Option Char :=
  (text.data.dropWhile Char.isWhitespace).head?

mutual
/-- `pack_data` (`data_format.rs:28-142`): encode a typed JSON value to
bytes.  The `"object"` arm can re-enter itself through a parameter
string that parses to JSON, so the recursion is fuelled; `none` means
the recursion did not finish within the fuel. -/
def pack_data (libs : Libs) (fuel : Nat) (value : Json) (params : List String) :
    Option (Except String (List Nat)) :=
  match fuel with
  | 0 => none
  | f + 1 =>
    let resolved := resolve_value value params
    match resolved with
    | Json.bool _ =>
      (match parse_bool resolved with
       | Except.error e => some (Except.error e)
       | Except.ok data => some (Except.ok [if data then 1 else 0]))
    | Json.num _ =>
      (match parse_u64 resolved with
       | Except.error e => some (Except.error e)
       | Except.ok length => some (Except.ok (List.replicate length 0)))
    | Json.str _ =>
      let data := resolve_value resolved params
      (match data.as_str with
       | none => some (Except.error "Invalid string data")
       | some data_str =>
         match data_str.data with
         | '0' :: 'x' :: hexStr =>
           (match hexDecodeChars hexStr with
            | none => some (Except.error "Invalid hex string")
            | some bytes => some (Except.ok bytes))
         | _ =>
           (match libs.base64_decode data_str with
            | none => some (Except.error "Invalid base64 string")
            | some decoded => some (Except.ok decoded)))
    | Json.arr items =>
      (match packArrayItems params items with
       | Except.error e => some (Except.error e)
       | Except.ok out => some (Except.ok out))
    | Json.obj map =>
      (match (Json.mapGet map "type").bind Json.as_str with
       | none => some (Except.error "Missing type in data object")
       | some kind =>
         if kind = "u8" then
           match Json.mapGet map "data" with
           | none => some (Except.error "Missing data")
           | some data =>
             match parse_u64 (resolve_value data params) with
             | Except.error e => some (Except.error e)
             | Except.ok v => some (Except.ok [v % 256])
         else if kind = "u16" then
           match Json.mapGet map "data" with
           | none => some (Except.error "Missing data")
           | some data =>
             match parse_u64 (resolve_value data params) with
             | Except.error e => some (Except.error e)
             | Except.ok v => some (Except.ok (leBytes 2 (v % 2 ^ 16)))
         else if kind = "u32" then
           match Json.mapGet map "data" with
           | none => some (Except.error "Missing data")
           | some data =>
             match parse_u64 (resolve_value data params) with
             | Except.error e => some (Except.error e)
             | Except.ok v => some (Except.ok (leBytes 4 (v % 2 ^ 32)))
         else if kind = "u64" then
           match Json.mapGet map "data" with
           | none => some (Except.error "Missing data")
           | some data =>
             match parse_u64 (resolve_value data params) with
             | Except.error e => some (Except.error e)
             | Except.ok v => some (Except.ok (leBytes 8 v))
         else if kind = "pubkey" then
           match Json.mapGet map "data" with
           | none => some (Except.error "Missing data")
           | some data =>
             match parse_pubkey libs f data params with
             | none => none
             | some (Except.error e) => some (Except.error e)
             | some (Except.ok pubkey) => some (Except.ok pubkey.bytes)
         else if kind = "string" ∨ kind = "bytes" then
           match Json.mapGet map "data" with
           | none => some (Except.error "Missing data")
           | some data => pack_data libs f data params
         else if kind = "object" then
           match Json.mapGet map "data" with
           | none => some (Except.error "Missing data")
           | some data =>
             let resolved2 := resolve_value data params
             let parsed :=
               match resolved2 with
               | Json.str text =>
                 if trimStartHead text = some '[' ∨ trimStartHead text = some (Char.ofNat 123)
                 then (libs.json_from_str text).getD resolved2
                 else resolved2
               | _ => resolved2
             match parsed.as_array with
             | none => some (Except.error "Object data must be array")
             | some list => packList libs f list params
         else some (Except.error ("Unsupported data object type: " ++ kind)))
    | Json.null => some (Except.ok [])
termination_by (fuel, 0)

/-- The buffer-extending loop of `pack_data`'s `"object"` arm
(`data_format.rs:131-135`). -/
def packList (libs : Libs) (fuel : Nat) (entries : List Json) (params : List String) :
    Option (Except String (List Nat)) :=
  match entries with
  | [] => some (Except.ok [])
  | e :: rest =>
    match pack_data libs fuel e params with
    | none => none
    | some (Except.error err) => some (Except.error err)
    | some (Except.ok bytes) =>
      match packList libs fuel rest params with
      | none => none
      | some (Except.error err) => some (Except.error err)
      | some (Except.ok out) => some (Except.ok (bytes ++ out))
termination_by (fuel, entries.length + 1)
end

/-! ### Template decompiler (`src/tx_format/parse_tx.rs`)

The embedding covers the per-transaction data of `parse_tx_to_json`:
signer/writable/account extraction, associated-token-account detection,
the per-account substitution of `normalize_instruction`, the opaque-data
normalization, and the emitted signer placeholder list. -/

/-- `Value::get` on an object. -/
def Json.get (j : Json) (k : String) : Option Json :=
  j.as_object.bind (fun m => Json.mapGet m k)

/-- `decode_base58_to_hex` (`parse_tx.rs:14-19`). -/
def decode_base58_to_hex (data : String) : Except String String :=
  match bs58_decode data with
  | none => Except.error "Invalid base58 data"
  | some bytes => Except.ok ("0x" ++ hex_encode bytes)

/-- `AccountInfo` (`parse_tx.rs:21-26`). -/
structure AccountInfo where
  pubkey : String
  signer : Bool
  writable : Bool
deriving Repr, DecidableEq

/-- `signers_accounts` (`parse_tx.rs:196-200`). -/
def signersAccounts (infos : List AccountInfo) : List String :=
  (infos.filter (fun k => k.signer)).map (fun k => k.pubkey)

/-- `writable_accounts` (`parse_tx.rs:201-205`). -/
def writableAccounts (infos : List AccountInfo) : List String :=
  (infos.filter (fun k => k.writable)).map (fun k => k.pubkey)

/-- `accounts` (`parse_tx.rs:209`). -/
def txAccounts (infos : List AccountInfo) : List String :=
  infos.map (fun k => k.pubkey)

/-- The JSON record `find_ata_accounts` pushes (`parse_tx.rs:84-89`);
object keys are in `BTreeMap` order. -/
def ataEntry (owner mint ata_str : String) : Json :=
  Json.obj [("mint", Json.str mint), ("owner", Json.str owner),
            ("pubkey", Json.str ata_str), ("type", Json.str "ata")]

/-- `find_ata_accounts` (`parse_tx.rs:63-94`): for every ordered pair of
transaction accounts that parse as pubkeys, derive the associated token
address and record it when it is itself among the accounts. -/
def find_ata_accounts (libs : Libs) (accounts : List String) : List Json :=
  accounts.foldl (fun acc owner =>
    accounts.foldl (fun acc mint =>
      match Pubkey.from_str owner, Pubkey.from_str mint with
      | some owner_key, some mint_key =>
        let ata := libs.find_program_address
          [owner_key.bytes, TOKEN_PROGRAM_ID.bytes, mint_key.bytes] ASSOCIATED_TOKEN_PROGRAM_ID
        let ata_str := ata.to_string
        if accounts.contains ata_str then acc ++ [ataEntry owner mint ata_str] else acc
      | _, _ => acc) acc) []

/-- The per-account body of `normalize_instruction`
(`parse_tx.rs:259-291`): ATA replacement, then signer-placeholder
substitution (strings wholly; ATA descriptors only in `owner`), then the
account-meta record. -/
def ataPubkeyValue (ata_accounts : List Json) (account : String) : Json :=
  match ata_accounts.find? (fun ata =>
      (Json.get ata "pubkey").bind Json.as_str = some account) with
  | some ata =>
    Json.obj [("mint", (Json.get ata "mint").getD Json.null),
              ("owner", (Json.get ata "owner").getD Json.null),
              ("type", Json.str "ata")]
  | none => Json.str account

def signerSubstitute (signers_accounts : List String) (pubkey_value : Json) : Json :=
  match pubkey_value with
  | Json.str pk =>
    (match signers_accounts.findIdx? (fun x => x = pk) with
     | some index => Json.str ("$" ++ toString (index + 1))
     | none => Json.str pk)
  | Json.obj m =>
    (match (Json.mapGet m "owner").bind Json.as_str with
     | some owner =>
       match signers_accounts.findIdx? (fun x => x = owner) with
       | some index =>
         Json.obj (Json.mapInsert m "owner" (Json.str ("$" ++ toString (index + 1))))
       | none => Json.obj m
     | none => Json.obj m)
  | other => other

def accountOutput (ata_accounts : List Json) (signers_accounts writable_accounts : List String)
    (account : String) : Json :=
  Json.obj [("is_signer", Json.bool (signers_accounts.contains account)),
            ("is_writable", Json.bool (writable_accounts.contains account)),
            ("pubkey", signerSubstitute signers_accounts
              (ataPubkeyValue ata_accounts account))]

/-- The tail of the `normalize_instruction` closure
(`parse_tx.rs:252-298`), applied once `program_id`, the account address
list and the raw `data` value have been extracted from the instruction
variant: string data is base58-decoded to `0x`-hex (an error here aborts
the whole decompilation), and the account metas are assembled. -/
def normalize_instruction (ata_accounts : List Json)
    (signers_accounts writable_accounts : List String)
    (program_id : String) (accounts_list : List String) (data : Json) :
    Except String Json :=
  match (match data with
         | Json.str s =>
           (match decode_base58_to_hex s with
            | Except.error e => Except.error e
            | Except.ok hexs => Except.ok (Json.str hexs))
         | _ => Except.ok data) with
  | Except.error e => Except.error e
  | Except.ok data =>
    Except.ok (Json.obj
      [("accounts", Json.arr (accounts_list.map
          (accountOutput ata_accounts signers_accounts writable_accounts))),
       ("data", data),
       ("program_id", Json.str program_id)])

/-- `signers_json` (`parse_tx.rs:306-310`): trailing placeholders
`$(n+1) … $(2n)` for the `n` signer accounts. -/
def signersJson (signers_accounts : List String) : List Json :=
  (List.range signers_accounts.length).map
    (fun index => Json.str ("$" ++ toString (signers_accounts.length + index + 1)))

/-! ### A concrete instantiation of the external collaborators, used to
evaluate the embedding on concrete inputs. -/
def libsI : Libs :=
  { find_program_address := fun _ _ => SYSTEM_PROGRAM_ID
    from_utf8_lossy := fun _ => ""
    base64_decode := fun _ => none
    base64_encode := fun _ => ""
    json_from_str := fun _ => none }

/-! ### Map, slice and little-endian lemmas -/

theorem charListLt_irrefl : ∀ l : List Char, charListLt l l = false := by
  intro l
  induction l with
  | nil => rfl
  | cons a as_ ih => simp [charListLt, ih]

theorem charListLt_trans :
    ∀ a b c : List Char, charListLt a b = true → charListLt b c = true →
      charListLt a c = true := by
  intro a
  induction a with
  | nil =>
    intro b c hab hbc
    cases b with
    | nil => exact hbc
    | cons x xs =>
      cases c with
      | nil => simp [charListLt] at hbc
      | cons y ys => rfl
  | cons x xs ih =>
    intro b c hab hbc
    cases b with
    | nil => simp [charListLt] at hab
    | cons y ys =>
      cases c with
      | nil => simp [charListLt] at hbc
      | cons z zs =>
        simp only [charListLt] at hab hbc ⊢
        by_cases h1 : x.toNat < y.toNat
        · by_cases h2 : y.toNat < z.toNat
          · rw [if_pos (show x.toNat < z.toNat by omega)]
          · rw [if_neg h2] at hbc
            by_cases h3 : z.toNat < y.toNat
            · rw [if_pos h3] at hbc; exact absurd hbc Bool.false_ne_true
            · rw [if_pos (show x.toNat < z.toNat by omega)]
        · rw [if_neg h1] at hab
          by_cases h1b : y.toNat < x.toNat
          · rw [if_pos h1b] at hab; exact absurd hab Bool.false_ne_true
          · rw [if_neg h1b] at hab
            by_cases h2 : y.toNat < z.toNat
            · rw [if_pos (show x.toNat < z.toNat by omega)]
            · rw [if_neg h2] at hbc
              by_cases h3 : z.toNat < y.toNat
              · rw [if_pos h3] at hbc; exact absurd hbc Bool.false_ne_true
              · rw [if_neg h3] at hbc
                rw [if_neg (show ¬x.toNat < z.toNat by omega),
                  if_neg (show ¬z.toNat < x.toNat by omega)]
                exact ih ys zs hab hbc

theorem strLt_irrefl (k : String) : strLt k k = false := charListLt_irrefl k.data

theorem strLt_trans {a b c : String} (h1 : strLt a b = true) (h2 : strLt b c = true) :
    strLt a c = true := charListLt_trans a.data b.data c.data h1 h2

theorem strLt_asymm {a b : String} (h : strLt a b = true) : strLt b a = false := by
  by_contra hc
  have hba : strLt b a = true := by
    cases hh : strLt b a
    · exact absurd hh hc
    · rfl
  have := strLt_trans h hba
  rw [strLt_irrefl] at this
  exact Bool.false_ne_true this

theorem Json.mapGet_insert_self (m : List (String × Json)) (k : String) (v : Json) :
    Json.mapGet (Json.mapInsert m k v) k = some v := by
  induction m with
  | nil => simp [Json.mapInsert, Json.mapGet]
  | cons hd tl ih =>
    obtain ⟨k', v'⟩ := hd
    by_cases h1 : strLt k k' = true
    · simp [Json.mapInsert, h1, Json.mapGet]
    · by_cases h2 : k = k'
      · simp [Json.mapInsert, h1, h2, Json.mapGet, strLt_irrefl]
      · have hne : k' ≠ k := fun h => h2 h.symm
        simp [Json.mapInsert, h1, h2, Json.mapGet, hne, ih]

theorem Json.mapGet_insert_ne (m : List (String × Json)) (k k2 : String) (v : Json)
    (hne : k2 ≠ k) : Json.mapGet (Json.mapInsert m k v) k2 = Json.mapGet m k2 := by
  have hkk2 : ¬k = k2 := fun h => hne h.symm
  induction m with
  | nil => simp [Json.mapInsert, Json.mapGet, hkk2]
  | cons hd tl ih =>
    obtain ⟨k', v'⟩ := hd
    by_cases h1 : strLt k k' = true
    · simp [Json.mapInsert, h1, Json.mapGet, hkk2]
    · by_cases h2 : k = k'
      · subst h2
        simp [Json.mapInsert, h1, Json.mapGet, hkk2]
      · simp only [Json.mapInsert, h1, if_false, Bool.false_eq_true, if_neg h2, Json.mapGet]
        split
        · rfl
        · exact ih

/-- Keys of an association list are strictly increasing (the invariant
a `serde_json` `BTreeMap` maintains). -/
def sortedKeys : List (String × Json) → Bool
  | [] => true
  | [_] => true
  | (k1, _) :: (k2, v2) :: rest => strLt k1 k2 && sortedKeys ((k2, v2) :: rest)

theorem sortedKeys_tail {hd : String × Json} {tl : List (String × Json)}
    (hs : sortedKeys (hd :: tl) = true) : sortedKeys tl = true := by
  cases tl with
  | nil => rfl
  | cons hd2 tl2 =>
    obtain ⟨k1, v1⟩ := hd
    obtain ⟨k2, v2⟩ := hd2
    simp only [sortedKeys, Bool.and_eq_true] at hs
    exact hs.2

theorem sortedKeys_head_lt :
    ∀ {k' : String} {v' : Json} {tl : List (String × Json)},
      sortedKeys ((k', v') :: tl) = true → ∀ p ∈ tl, strLt k' p.1 = true := by
  intro k' v' tl
  induction tl generalizing k' v' with
  | nil => intro _ p hp; simp at hp
  | cons hd2 tl2 ih =>
    intro hs p hp
    obtain ⟨k2, v2⟩ := hd2
    simp only [sortedKeys, Bool.and_eq_true] at hs
    rcases List.mem_cons.mp hp with h | h
    · subst h; exact hs.1
    · exact strLt_trans hs.1 (ih hs.2 p h)

theorem Json.mapGet_mem :
    ∀ {m : List (String × Json)} {k : String} {v : Json},
      Json.mapGet m k = some v → (k, v) ∈ m := by
  intro m
  induction m with
  | nil => intro k v h; simp [Json.mapGet] at h
  | cons hd tl ih =>
    intro k v h
    obtain ⟨k', v'⟩ := hd
    simp only [Json.mapGet] at h
    split at h
    · cases h
      simp_all
    · exact List.mem_cons.mpr (Or.inr (ih h))

theorem Json.mapInsert_self_of_sorted :
    ∀ (m : List (String × Json)) (k : String) (v : Json),
      sortedKeys m = true → Json.mapGet m k = some v → Json.mapInsert m k v = m := by
  intro m
  induction m with
  | nil => intro k v _ hg; simp [Json.mapGet] at hg
  | cons hd tl ih =>
    intro k v hs hg
    obtain ⟨k', v'⟩ := hd
    by_cases h2 : k' = k
    · subst h2
      simp only [Json.mapGet, if_pos rfl] at hg
      cases hg
      simp [Json.mapInsert, strLt_irrefl]
    · simp only [Json.mapGet, if_neg h2] at hg
      have hmem : (k, v) ∈ tl := Json.mapGet_mem hg
      have hklt : strLt k' k = true := by
        have := sortedKeys_head_lt hs (k, v) hmem
        simpa using this
      have hnlt : ¬strLt k k' = true := by
        rw [strLt_asymm hklt]
        exact Bool.false_ne_true
      have hkne : ¬k = k' := fun h => h2 (Eq.symm h)
      simp only [Json.mapInsert, if_neg hnlt, if_neg hkne]
      rw [ih k v (sortedKeys_tail hs) hg]

theorem leBytes_length (w v : Nat) : (leBytes w v).length = w := by
  induction w generalizing v with
  | zero => rfl
  | succ w ih => simp [leBytes, ih]

theorem fromLeBytes_leBytes (w v : Nat) : fromLeBytes (leBytes w v) = v % 2 ^ (8 * w) := by
  induction w generalizing v with
  | zero => simp [leBytes, fromLeBytes, Nat.mod_one]
  | succ w ih =>
    have h : 2 ^ (8 * (w + 1)) = 256 * 2 ^ (8 * w) := by ring
    rw [leBytes, fromLeBytes, ih, h, Nat.mod_mul]

theorem sliceGet_append (pre mid post : List Nat) :
    sliceGet (pre ++ mid ++ post) pre.length mid.length = some mid := by
  unfold sliceGet
  rw [if_pos (by simp)]
  congr 1
  rw [List.append_assoc, List.drop_left, List.take_left]

theorem sliceGet_oob {buffer : List Nat} {offset len : Nat}
    (h : buffer.length < offset + len) : sliceGet buffer offset len = none := by
  unfold sliceGet
  rw [if_neg (by omega)]

theorem listGet_append (pre : List Nat) (b : Nat) (post : List Nat) :
    (pre ++ b :: post).get? pre.length = some b := by
  rw [List.get?_append_right (le_refl _)]
  simp

theorem listGet_oob {buffer : List Nat} {offset : Nat}
    (h : buffer.length ≤ offset) : buffer.get? offset = none :=
  List.get?_eq_none.mpr h

theorem listGet_lt {buffer : List Nat} {offset : Nat} (h : offset < buffer.length) :
    ∃ b, buffer.get? offset = some b := by
  rw [List.get?_eq_get h]
  exact ⟨_, rfl⟩

theorem sliceGet_some {buffer : List Nat} {offset len : Nat}
    (h : offset + len ≤ buffer.length) :
    ∃ bs, sliceGet buffer offset len = some bs := by
  unfold sliceGet
  rw [if_pos h]
  exact ⟨_, rfl⟩

theorem Json.as_u64_lt {j : Json} {n : Nat} (h : Json.as_u64 j = some n) : n < 2 ^ 64 := by
  cases j <;> simp [Json.as_u64] at h
  rcases h with ⟨⟨h1, h2⟩, h3⟩
  omega

/-! ### Byte requirements of a schema

`requiredBytes` is a statement-side measure: the number of bytes
`unpack_data` reads for a schema, mirroring the widths and the schema
keys (`"Size"` for bytes, `"length"` for strings) the unpacker itself
consults.  It is `none` for schemas the unpacker rejects outright and
for arrays nested inside an object's field list (which `unpack_data`
decodes but whose results `get_byte_length` then rejects). -/
mutual
def requiredBytes (schema : Json) : Option Nat :=
  match schema with
  | Json.arr entries => requiredBytesList entries
  | Json.obj m =>
    (match (Json.mapGet m "type").bind Json.as_str with
     | none => none
     | some kind =>
       if kind = "u8" then some 1
       else if kind = "u16" then some 2
       else if kind = "u32" then some 4
       else if kind = "u64" then some 8
       else if kind = "boolean" then some 1
       else if kind = "pubkey" then some 32
       else if kind = "bytes" then (Json.mapGet m "Size").bind Json.as_u64
       else if kind = "string" then (Json.mapGet m "length").bind Json.as_u64
       else if kind = "object" then
         match hd : (Json.mapGet m "data").bind Json.as_array with
         | none => none
         | some list => requiredBytesList list
       else none)
  | _ => none
termination_by sizeOf schema
decreasing_by
  · simp
  · simpa using sizeOf_data_list hd

def requiredBytesList : List Json → Option Nat
  | [] => some 0
  | Json.obj m :: rest =>
    (match requiredBytes (Json.obj m), requiredBytesList rest with
     | some a, some b => some (a + b)
     | _, _ => none)
  | _ :: _ => none
termination_by l => sizeOf l
end

/-! ### Byte lengths of unpacker outputs -/

theorem gbl_out_fixed (m : List (String × Json)) (d : Json) (kind : String) (w : Nat)
    (ht : Json.mapGet m "type" = some (Json.str kind))
    (hw : (kind = "u8" ∧ w = 1) ∨ (kind = "u16" ∧ w = 2) ∨ (kind = "u32" ∧ w = 4) ∨
      (kind = "u64" ∧ w = 8) ∨ (kind = "boolean" ∧ w = 1) ∨ (kind = "pubkey" ∧ w = 32)) :
    get_byte_length (Json.obj (Json.mapInsert m "data" d)) = Except.ok w := by
  rw [get_byte_length]
  rcases hw with ⟨h, rfl⟩ | ⟨h, rfl⟩ | ⟨h, rfl⟩ | ⟨h, rfl⟩ | ⟨h, rfl⟩ | ⟨h, rfl⟩ <;> subst h <;>
    simp [Json.as_object, Json.mapGet_insert_ne m "data" "type" d (by decide), ht, Json.as_str]

theorem Json.as_u64_num_of_lt {w : Nat} (h : w < 2 ^ 64) :
    Json.as_u64 (Json.num (w : Int)) = some w := by
  simp only [Json.as_u64]
  rw [if_pos ⟨Int.ofNat_nonneg w, by exact_mod_cast h⟩]
  simp

theorem gbl_bytes_of {mm : List (String × Json)} {w : Nat}
    (ht : Json.mapGet mm "type" = some (Json.str "bytes"))
    (hs : (Json.mapGet mm "size").bind Json.as_u64 = some w) :
    get_byte_length (Json.obj mm) = Except.ok w := by
  rw [get_byte_length]
  simp [Json.as_object, ht, Json.as_str, hs]

theorem gbl_string_of {mm : List (String × Json)} {w : Nat}
    (ht : Json.mapGet mm "type" = some (Json.str "string"))
    (hs : (Json.mapGet mm "length").bind Json.as_u64 = some w) :
    get_byte_length (Json.obj mm) = Except.ok w := by
  rw [get_byte_length]
  simp [Json.as_object, ht, Json.as_str, hs]

theorem gbl_out_sized (m : List (String × Json)) (d : Json) (kind sizeKey : String) (w : Nat)
    (ht : Json.mapGet m "type" = some (Json.str kind))
    (hkind : (kind = "bytes" ∧ sizeKey = "size") ∨ (kind = "string" ∧ sizeKey = "length"))
    (hlt : w < 2 ^ 64) :
    get_byte_length (Json.obj (Json.mapInsert
      (Json.mapInsert m sizeKey (Json.num w)) "data" d)) = Except.ok w := by
  rcases hkind with ⟨h1, h2⟩ | ⟨h1, h2⟩ <;> subst h1 <;> subst h2
  · refine gbl_bytes_of ?_ ?_
    · rw [Json.mapGet_insert_ne _ "data" "type" _ (by decide),
        Json.mapGet_insert_ne _ "size" "type" _ (by decide)]
      exact ht
    · rw [Json.mapGet_insert_ne _ "data" "size" _ (by decide), Json.mapGet_insert_self,
        Option.some_bind]
      exact Json.as_u64_num_of_lt hlt
  · refine gbl_string_of ?_ ?_
    · rw [Json.mapGet_insert_ne _ "data" "type" _ (by decide),
        Json.mapGet_insert_ne _ "length" "type" _ (by decide)]
      exact ht
    · rw [Json.mapGet_insert_ne _ "data" "length" _ (by decide), Json.mapGet_insert_self,
        Option.some_bind]
      exact Json.as_u64_num_of_lt hlt

theorem objectOut_none {m : List (String × Json)} (out_list : List Json)
    (hn : Json.mapGet m "name" = none) :
    objectOut m out_list = [("data", Json.arr out_list), ("type", Json.str "object")] := by
  unfold objectOut
  rw [hn]
  rfl

theorem objectOut_name {m : List (String × Json)} (out_list : List Json) {name : Json}
    (hn : Json.mapGet m "name" = some name) :
    objectOut m out_list =
      [("data", Json.arr out_list), ("name", name), ("type", Json.str "object")] := by
  unfold objectOut
  rw [hn]
  rfl

theorem gbl_out_object (m : List (String × Json)) (out_list : List Json) (r : Nat)
    (hb : byteLengthList out_list = Except.ok r) :
    get_byte_length (Json.obj (objectOut m out_list)) = Except.ok r := by
  cases hn : Json.mapGet m "name" with
  | none =>
    rw [objectOut_none out_list hn, get_byte_length]
    simp [Json.as_object, Json.mapGet, Json.as_str, Json.as_array, hb]
  | some name =>
    rw [objectOut_name out_list hn, get_byte_length]
    simp [Json.as_object, Json.mapGet, Json.as_str, Json.as_array, hb]

/-! ### Per-kind behaviour of the unpacker -/

theorem bind_as_str_inv {m : List (String × Json)} {key k : String}
    (h : (Json.mapGet m key).bind Json.as_str = some k) :
    Json.mapGet m key = some (Json.str k) := by
  obtain ⟨t, ht, ha⟩ := Option.bind_eq_some.mp h
  cases t <;> simp [Json.as_str] at ha
  subst ha
  exact ht

/-- Dispatch of `unpack_data` on a schema map whose `"type"` is a known
scalar kind. -/
theorem unpack_dispatch (libs : Libs) (buffer : List Nat) (m : List (String × Json))
    (offset : Nat) (kind : String)
    (hbind : (Json.mapGet m "type").bind Json.as_str = some kind) :
    unpack_data libs buffer (Json.obj m) offset =
      (if kind = "u8" then unpackU8 buffer m offset
       else if kind = "u16" then unpackU16 buffer m offset
       else if kind = "u32" then unpackU32 buffer m offset
       else if kind = "u64" then unpackU64 buffer m offset
       else if kind = "boolean" then unpackBoolean buffer m offset
       else if kind = "pubkey" then unpackPubkey buffer m offset
       else if kind = "bytes" then unpackBytes libs buffer m offset
       else if kind = "string" then unpackString libs buffer m offset
       else if kind = "object" then
         match hd : (Json.mapGet m "data").bind Json.as_array with
         | none => Except.error "Missing object data"
         | some list =>
           match unpackList libs buffer list offset with
           | Except.error e => Except.error e
           | Except.ok out_list => Except.ok (Json.obj (objectOut m out_list))
       else Except.error ("Unknown type: " ++ kind)) := by
  rw [unpack_data]
  rw [hbind]

theorem unpack_u8_spec (libs : Libs) (buffer : List Nat) (m : List (String × Json)) (offset : Nat)
    (hbind : (Json.mapGet m "type").bind Json.as_str = some "u8") :
    (buffer.length < offset + 1 →
      unpack_data libs buffer (Json.obj m) offset = Except.error "Out of bounds") ∧
    (offset + 1 ≤ buffer.length →
      ∃ v, unpack_data libs buffer (Json.obj m) offset = Except.ok v ∧
        get_byte_length v = Except.ok 1) := by
  rw [unpack_dispatch libs buffer m offset "u8" hbind, if_pos rfl]
  constructor
  · intro hlt
    rw [unpackU8, listGet_oob (by omega)]
  · intro hle
    obtain ⟨b, hb⟩ := listGet_lt (show offset < buffer.length by omega)
    rw [unpackU8, hb]
    exact ⟨_, rfl, gbl_out_fixed m _ "u8" 1 (bind_as_str_inv hbind) (by simp)⟩

theorem unpack_boolean_spec (libs : Libs) (buffer : List Nat) (m : List (String × Json))
    (offset : Nat)
    (hbind : (Json.mapGet m "type").bind Json.as_str = some "boolean") :
    (buffer.length < offset + 1 →
      unpack_data libs buffer (Json.obj m) offset = Except.error "Out of bounds") ∧
    (offset + 1 ≤ buffer.length →
      ∃ v, unpack_data libs buffer (Json.obj m) offset = Except.ok v ∧
        get_byte_length v = Except.ok 1) := by
  rw [unpack_dispatch libs buffer m offset "boolean" hbind,
    if_neg (by decide), if_neg (by decide), if_neg (by decide), if_neg (by decide), if_pos rfl]
  constructor
  · intro hlt
    rw [unpackBoolean, listGet_oob (by omega)]
  · intro hle
    obtain ⟨b, hb⟩ := listGet_lt (show offset < buffer.length by omega)
    rw [unpackBoolean, hb]
    exact ⟨_, rfl, gbl_out_fixed m _ "boolean" 1 (bind_as_str_inv hbind) (by simp)⟩

theorem unpack_u16_spec (libs : Libs) (buffer : List Nat) (m : List (String × Json)) (offset : Nat)
    (hbind : (Json.mapGet m "type").bind Json.as_str = some "u16") :
    (buffer.length < offset + 2 →
      unpack_data libs buffer (Json.obj m) offset = Except.error "Out of bounds") ∧
    (offset + 2 ≤ buffer.length →
      ∃ v, unpack_data libs buffer (Json.obj m) offset = Except.ok v ∧
        get_byte_length v = Except.ok 2) := by
  rw [unpack_dispatch libs buffer m offset "u16" hbind, if_neg (by decide), if_pos rfl]
  constructor
  · intro hlt
    rw [unpackU16, sliceGet_oob hlt]
  · intro hle
    obtain ⟨bs, hbs⟩ := sliceGet_some hle
    rw [unpackU16, hbs]
    exact ⟨_, rfl, gbl_out_fixed m _ "u16" 2 (bind_as_str_inv hbind) (by simp)⟩

theorem unpack_u32_spec (libs : Libs) (buffer : List Nat) (m : List (String × Json)) (offset : Nat)
    (hbind : (Json.mapGet m "type").bind Json.as_str = some "u32") :
    (buffer.length < offset + 4 →
      unpack_data libs buffer (Json.obj m) offset = Except.error "Out of bounds") ∧
    (offset + 4 ≤ buffer.length →
      ∃ v, unpack_data libs buffer (Json.obj m) offset = Except.ok v ∧
        get_byte_length v = Except.ok 4) := by
  rw [unpack_dispatch libs buffer m offset "u32" hbind,
    if_neg (by decide), if_neg (by decide), if_pos rfl]
  constructor
  · intro hlt
    rw [unpackU32, sliceGet_oob hlt]
  · intro hle
    obtain ⟨bs, hbs⟩ := sliceGet_some hle
    rw [unpackU32, hbs]
    exact ⟨_, rfl, gbl_out_fixed m _ "u32" 4 (bind_as_str_inv hbind) (by simp)⟩

theorem unpack_u64_spec (libs : Libs) (buffer : List Nat) (m : List (String × Json)) (offset : Nat)
    (hbind : (Json.mapGet m "type").bind Json.as_str = some "u64") :
    (buffer.length < offset + 8 →
      unpack_data libs buffer (Json.obj m) offset = Except.error "Out of bounds") ∧
    (offset + 8 ≤ buffer.length →
      ∃ v, unpack_data libs buffer (Json.obj m) offset = Except.ok v ∧
        get_byte_length v = Except.ok 8) := by
  rw [unpack_dispatch libs buffer m offset "u64" hbind,
    if_neg (by decide), if_neg (by decide), if_neg (by decide), if_pos rfl]
  constructor
  · intro hlt
    rw [unpackU64, sliceGet_oob hlt]
  · intro hle
    obtain ⟨bs, hbs⟩ := sliceGet_some hle
    rw [unpackU64, hbs]
    exact ⟨_, rfl, gbl_out_fixed m _ "u64" 8 (bind_as_str_inv hbind) (by simp)⟩

theorem unpack_pubkey_spec (libs : Libs) (buffer : List Nat) (m : List (String × Json))
    (offset : Nat)
    (hbind : (Json.mapGet m "type").bind Json.as_str = some "pubkey") :
    (buffer.length < offset + 32 →
      unpack_data libs buffer (Json.obj m) offset = Except.error "Out of bounds") ∧
    (offset + 32 ≤ buffer.length →
      ∃ v, unpack_data libs buffer (Json.obj m) offset = Except.ok v ∧
        get_byte_length v = Except.ok 32) := by
  rw [unpack_dispatch libs buffer m offset "pubkey" hbind, if_neg (by decide),
    if_neg (by decide), if_neg (by decide), if_neg (by decide), if_neg (by decide), if_pos rfl]
  constructor
  · intro hlt
    rw [unpackPubkey]
    split
    · rfl
    · rename_i bytes hs
      rw [sliceGet_oob hlt] at hs
      cases hs
  · intro hle
    rw [unpackPubkey]
    split
    · rename_i hs
      obtain ⟨bs, hbs⟩ := sliceGet_some hle
      rw [hbs] at hs
      cases hs
    · rename_i bytes hs
      exact ⟨_, rfl, gbl_out_fixed m _ "pubkey" 32 (bind_as_str_inv hbind) (by simp)⟩

theorem unpack_bytes_spec (libs : Libs) (buffer : List Nat) (m : List (String × Json))
    (offset size : Nat)
    (hbind : (Json.mapGet m "type").bind Json.as_str = some "bytes")
    (hsize : (Json.mapGet m "Size").bind Json.as_u64 = some size) :
    (buffer.length < offset + size →
      unpack_data libs buffer (Json.obj m) offset = Except.error "Out of bounds") ∧
    (offset + size ≤ buffer.length →
      ∃ v, unpack_data libs buffer (Json.obj m) offset = Except.ok v ∧
        get_byte_length v = Except.ok size) := by
  have hlt64 : size < 2 ^ 64 := by
    obtain ⟨t, _, ha⟩ := Option.bind_eq_some.mp hsize
    exact Json.as_u64_lt ha
  rw [unpack_dispatch libs buffer m offset "bytes" hbind, if_neg (by decide),
    if_neg (by decide), if_neg (by decide), if_neg (by decide), if_neg (by decide),
    if_neg (by decide), if_pos rfl]
  rw [unpackBytes]
  simp only [hsize]
  constructor
  · intro hlt
    rw [sliceGet_oob hlt]
  · intro hle
    obtain ⟨bs, hbs⟩ := sliceGet_some hle
    rw [hbs]
    exact ⟨_, rfl, gbl_out_sized m _ "bytes" "size" size (bind_as_str_inv hbind)
      (Or.inl ⟨rfl, rfl⟩) hlt64⟩

theorem unpack_string_spec (libs : Libs) (buffer : List Nat) (m : List (String × Json))
    (offset len : Nat)
    (hbind : (Json.mapGet m "type").bind Json.as_str = some "string")
    (hlen : (Json.mapGet m "length").bind Json.as_u64 = some len) :
    (buffer.length < offset + len →
      unpack_data libs buffer (Json.obj m) offset = Except.error "Out of bounds") ∧
    (offset + len ≤ buffer.length →
      ∃ v, unpack_data libs buffer (Json.obj m) offset = Except.ok v ∧
        get_byte_length v = Except.ok len) := by
  have hlt64 : len < 2 ^ 64 := by
    obtain ⟨t, _, ha⟩ := Option.bind_eq_some.mp hlen
    exact Json.as_u64_lt ha
  rw [unpack_dispatch libs buffer m offset "string" hbind, if_neg (by decide),
    if_neg (by decide), if_neg (by decide), if_neg (by decide), if_neg (by decide),
    if_neg (by decide), if_neg (by decide), if_pos rfl]
  rw [unpackString]
  simp only [hlen]
  constructor
  · intro hlt
    rw [sliceGet_oob hlt]
  · intro hle
    obtain ⟨bs, hbs⟩ := sliceGet_some hle
    rw [hbs]
    exact ⟨_, rfl, gbl_out_sized m _ "string" "length" len (bind_as_str_inv hbind)
      (Or.inr ⟨rfl, rfl⟩) hlt64⟩

/-! ### The unpacker consumes exactly the bytes its schema requires -/

mutual
/-- For an object schema whose `requiredBytes` is defined: with enough
bytes the unpacker succeeds and the result's `get_byte_length` is
exactly the requirement; with fewer bytes (and a positive requirement)
it fails with `Out of bounds`; and it never fails any other way. -/
theorem unpackObj_req (m : List (String × Json)) (libs : Libs) (buffer : List Nat)
    (offset r : Nat) (hreq : requiredBytes (Json.obj m) = some r) :
    (offset + r ≤ buffer.length →
      ∃ v, unpack_data libs buffer (Json.obj m) offset = Except.ok v ∧
        get_byte_length v = Except.ok r) ∧
    (1 ≤ r → buffer.length < offset + r →
      unpack_data libs buffer (Json.obj m) offset = Except.error "Out of bounds") ∧
    (unpack_data libs buffer (Json.obj m) offset = Except.error "Out of bounds" ∨
      ∃ v, unpack_data libs buffer (Json.obj m) offset = Except.ok v ∧
        get_byte_length v = Except.ok r) := by
  rw [requiredBytes] at hreq
  split at hreq
  · exact absurd hreq (by simp)
  rename_i kind hbind
  by_cases h8 : kind = "u8"
  · subst h8
    rw [if_pos rfl] at hreq
    injection hreq with hr
    subst hr
    have hs := unpack_u8_spec libs buffer m offset hbind
    refine ⟨fun hle => hs.2 hle, fun _ hlt => hs.1 hlt, ?_⟩
    by_cases hb : offset + 1 ≤ buffer.length
    · exact Or.inr (hs.2 hb)
    · exact Or.inl (hs.1 (by omega))
  by_cases h16 : kind = "u16"
  · subst h16
    rw [if_neg (by decide), if_pos rfl] at hreq
    injection hreq with hr
    subst hr
    have hs := unpack_u16_spec libs buffer m offset hbind
    refine ⟨fun hle => hs.2 hle, fun _ hlt => hs.1 hlt, ?_⟩
    by_cases hb : offset + 2 ≤ buffer.length
    · exact Or.inr (hs.2 hb)
    · exact Or.inl (hs.1 (by omega))
  by_cases h32 : kind = "u32"
  · subst h32
    rw [if_neg h8, if_neg h16, if_pos rfl] at hreq
    injection hreq with hr
    subst hr
    have hs := unpack_u32_spec libs buffer m offset hbind
    refine ⟨fun hle => hs.2 hle, fun _ hlt => hs.1 hlt, ?_⟩
    by_cases hb : offset + 4 ≤ buffer.length
    · exact Or.inr (hs.2 hb)
    · exact Or.inl (hs.1 (by omega))
  by_cases h64 : kind = "u64"
  · subst h64
    rw [if_neg h8, if_neg h16, if_neg h32, if_pos rfl] at hreq
    injection hreq with hr
    subst hr
    have hs := unpack_u64_spec libs buffer m offset hbind
    refine ⟨fun hle => hs.2 hle, fun _ hlt => hs.1 hlt, ?_⟩
    by_cases hb : offset + 8 ≤ buffer.length
    · exact Or.inr (hs.2 hb)
    · exact Or.inl (hs.1 (by omega))
  by_cases hbo : kind = "boolean"
  · subst hbo
    rw [if_neg h8, if_neg h16, if_neg h32, if_neg h64, if_pos rfl] at hreq
    injection hreq with hr
    subst hr
    have hs := unpack_boolean_spec libs buffer m offset hbind
    refine ⟨fun hle => hs.2 hle, fun _ hlt => hs.1 hlt, ?_⟩
    by_cases hb : offset + 1 ≤ buffer.length
    · exact Or.inr (hs.2 hb)
    · exact Or.inl (hs.1 (by omega))
  by_cases hpk : kind = "pubkey"
  · subst hpk
    rw [if_neg h8, if_neg h16, if_neg h32, if_neg h64, if_neg hbo, if_pos rfl] at hreq
    injection hreq with hr
    subst hr
    have hs := unpack_pubkey_spec libs buffer m offset hbind
    refine ⟨fun hle => hs.2 hle, fun _ hlt => hs.1 hlt, ?_⟩
    by_cases hb : offset + 32 ≤ buffer.length
    · exact Or.inr (hs.2 hb)
    · exact Or.inl (hs.1 (by omega))
  by_cases hby : kind = "bytes"
  · subst hby
    rw [if_neg h8, if_neg h16, if_neg h32, if_neg h64, if_neg hbo, if_neg hpk,
      if_pos rfl] at hreq
    have hs := unpack_bytes_spec libs buffer m offset r hbind hreq
    refine ⟨fun hle => hs.2 hle, fun _ hlt => hs.1 hlt, ?_⟩
    by_cases hb : offset + r ≤ buffer.length
    · exact Or.inr (hs.2 hb)
    · exact Or.inl (hs.1 (by omega))
  by_cases hst : kind = "string"
  · subst hst
    rw [if_neg h8, if_neg h16, if_neg h32, if_neg h64, if_neg hbo, if_neg hpk, if_neg hby,
      if_pos rfl] at hreq
    have hs := unpack_string_spec libs buffer m offset r hbind hreq
    refine ⟨fun hle => hs.2 hle, fun _ hlt => hs.1 hlt, ?_⟩
    by_cases hb : offset + r ≤ buffer.length
    · exact Or.inr (hs.2 hb)
    · exact Or.inl (hs.1 (by omega))
  by_cases hob : kind = "object"
  · subst hob
    rw [if_neg h8, if_neg h16, if_neg h32, if_neg h64, if_neg hbo, if_neg hpk, if_neg hby,
      if_neg hst, if_pos rfl] at hreq
    split at hreq
    · exact absurd hreq (by simp)
    rename_i list hdata
    rw [unpack_dispatch libs buffer m offset "object" hbind, if_neg (by decide),
      if_neg (by decide), if_neg (by decide), if_neg (by decide), if_neg (by decide),
      if_neg (by decide), if_neg (by decide), if_neg (by decide), if_pos rfl]
    split
    · rename_i hnone
      rw [hnone] at hdata
      cases hdata
    rename_i list2 hdata2
    have hll : list = list2 := by
      rw [hdata] at hdata2
      exact Option.some.inj hdata2
    rw [hll] at hreq
    have hl := unpackList_req list2 libs buffer offset r hreq
    refine ⟨?_, ?_, ?_⟩
    · intro hle
      obtain ⟨vs, hvs, hbll⟩ := hl.1 hle
      rw [hvs]
      exact ⟨_, rfl, gbl_out_object m vs r hbll⟩
    · intro hr hlt
      rw [hl.2.1 hr hlt]
    · rcases hl.2.2 with herr | ⟨vs, hvs, hbll⟩
      · rw [herr]
        exact Or.inl rfl
      · rw [hvs]
        exact Or.inr ⟨_, rfl, gbl_out_object m vs r hbll⟩
  · rw [if_neg h8, if_neg h16, if_neg h32, if_neg h64, if_neg hbo, if_neg hpk, if_neg hby,
      if_neg hst, if_neg hob] at hreq
    exact absurd hreq (by simp)
termination_by sizeOf (Json.obj m)
decreasing_by
  exact lt_of_lt_of_eq (sizeOf_data_list (by assumption)) (by simp)

/-- List version of `unpackObj_req`, threading the cursor. -/
theorem unpackList_req :
    ∀ (entries : List Json) (libs : Libs) (buffer : List Nat) (offset r : Nat),
    requiredBytesList entries = some r →
    ((offset + r ≤ buffer.length →
      ∃ vs, unpackList libs buffer entries offset = Except.ok vs ∧
        byteLengthList vs = Except.ok r) ∧
    (1 ≤ r → buffer.length < offset + r →
      unpackList libs buffer entries offset = Except.error "Out of bounds") ∧
    (unpackList libs buffer entries offset = Except.error "Out of bounds" ∨
      ∃ vs, unpackList libs buffer entries offset = Except.ok vs ∧
        byteLengthList vs = Except.ok r))
  | [], libs, buffer, offset, r, hreq => by
    rw [requiredBytesList] at hreq
    injection hreq with hr
    subst hr
    refine ⟨fun _ => ⟨[], ?_, ?_⟩, fun h1 => absurd h1 (by omega), Or.inr ⟨[], ?_, ?_⟩⟩ <;>
      first
        | rw [unpackList]
        | rw [byteLengthList]
  | Json.obj mm :: rest, libs, buffer, offset, r, hreq => by
    rw [requiredBytesList] at hreq
    split at hreq
    · rename_i a b ha hb
      injection hreq with hr
      subst hr
      have hobj := unpackObj_req mm libs buffer offset a ha
      refine ⟨?_, ?_, ?_⟩
      · intro hle
        obtain ⟨v, hv, hgbl⟩ := hobj.1 (by omega)
        obtain ⟨vs, hvs, hbll⟩ := (unpackList_req rest libs buffer (offset + a) b hb).1 (by omega)
        refine ⟨v :: vs, ?_, ?_⟩
        · rw [unpackList]
          simp only [hv, hgbl, hvs]
        · rw [byteLengthList]
          simp only [hgbl, hbll]
      · intro hr1 hlt
        by_cases hA : offset + a ≤ buffer.length
        · obtain ⟨v, hv, hgbl⟩ := hobj.1 hA
          have herr := (unpackList_req rest libs buffer (offset + a) b hb).2.1
            (by omega) (by omega)
          rw [unpackList]
          simp only [hv, hgbl, herr]
        · by_cases ha1 : 1 ≤ a
          · have herr := hobj.2.1 ha1 (by omega)
            rw [unpackList]
            simp only [herr]
          · rcases hobj.2.2 with herr | ⟨v, hv, hgbl⟩
            · rw [unpackList]
              simp only [herr]
            · have herr := (unpackList_req rest libs buffer (offset + a) b hb).2.1
                (by omega) (by omega)
              rw [unpackList]
              simp only [hv, hgbl, herr]
      · rcases hobj.2.2 with herr | ⟨v, hv, hgbl⟩
        · left
          rw [unpackList]
          simp only [herr]
        · rcases (unpackList_req rest libs buffer (offset + a) b hb).2.2 with
            herr2 | ⟨vs, hvs, hbll⟩
          · left
            rw [unpackList]
            simp only [hv, hgbl, herr2]
          · right
            refine ⟨v :: vs, ?_, ?_⟩
            · rw [unpackList]
              simp only [hv, hgbl, hvs]
            · rw [byteLengthList]
              simp only [hgbl, hbll]
    · exact absurd hreq (by simp)
  | Json.null :: rest, _, _, _, _, hreq => by simp [requiredBytesList] at hreq
  | Json.bool x :: rest, _, _, _, _, hreq => by simp [requiredBytesList] at hreq
  | Json.num x :: rest, _, _, _, _, hreq => by simp [requiredBytesList] at hreq
  | Json.str x :: rest, _, _, _, _, hreq => by simp [requiredBytesList] at hreq
  | Json.arr x :: rest, _, _, _, _, hreq => by simp [requiredBytesList] at hreq
termination_by entries => sizeOf entries
decreasing_by
  all_goals
    simp
    try omega
end

/-- C9: for every buffer, schema and offset, `unpack_data` fails with
`Out of bounds` whenever fewer bytes remain in the buffer at the offset
than the schema's type requires (`requiredBytes`); in particular (see
the witness) unpacking `[0x01]` with schema `{"type":"u16"}` at offset 0
fails with `Out of bounds`. -/
theorem c9_unpack_out_of_bounds (libs : Libs) (buffer : List Nat) (schema : Json)
    (offset r : Nat) (h1 : requiredBytes schema = some r) (h2 : 1 ≤ r)
    (h3 : buffer.length < offset + r) :
    unpack_data libs buffer schema offset = Except.error "Out of bounds" := by
  cases schema with
  | obj m => exact (unpackObj_req m libs buffer offset r h1).2.1 h2 h3
  | arr entries =>
    rw [requiredBytes] at h1
    have herr := (unpackList_req entries libs buffer offset r h1).2.1 h2 h3
    rw [unpack_data, herr]
  | null => simp [requiredBytes] at h1
  | bool x => simp [requiredBytes] at h1
  | num x => simp [requiredBytes] at h1
  | str x => simp [requiredBytes] at h1

unseal requiredBytes requiredBytesList unpack_data unpackList get_byte_length byteLengthList in
theorem c9_witness :
    requiredBytes (Json.obj [("type", Json.str "u16")]) = some 2 ∧
    1 ≤ 2 ∧ ([(1 : Nat)].length < 0 + 2) ∧
    unpack_data libsI [1] (Json.obj [("type", Json.str "u16")]) 0 =
      Except.error "Out of bounds" :=
  ⟨rfl, by omega, by simp,
    c9_unpack_out_of_bounds libsI [1] (Json.obj [("type", Json.str "u16")]) 0 2
      rfl (by omega) (by simp)⟩

/-- C3: unpacking the 8-byte little-endian encoding of a `u64` value `v`
yields the JSON number `v` when `v ≤ 2^53 − 1` and the JSON string of
`v`'s decimal representation when `v` exceeds that bound; moreover any
successful `u64` unpack that emits a JSON number emits one at most
`2^53 − 1`, so larger values are never emitted as JSON numbers. -/
theorem c3_u64_precision (libs : Libs) (v : Nat) (h : v < 2 ^ 64) :
    unpack_data libs (leBytes 8 v) (Json.obj [("type", Json.str "u64")]) 0 =
      Except.ok (Json.obj [("data",
          if v > MAX_SAFE_INTEGER then Json.str (toString v) else Json.num v),
        ("type", Json.str "u64")]) ∧
    (∀ (buffer : List Nat) (offset : Nat) (m : List (String × Json)) (out : Json),
      (Json.mapGet m "type").bind Json.as_str = some "u64" →
      unpack_data libs buffer (Json.obj m) offset = Except.ok out →
      ∀ d : Int, Json.get out "data" = some (Json.num d) →
        d ≤ (MAX_SAFE_INTEGER : Int)) := by
  constructor
  · have hb : (Json.mapGet [("type", Json.str "u64")] "type").bind Json.as_str
        = some "u64" := rfl
    rw [unpack_dispatch libs (leBytes 8 v) _ 0 "u64" hb, if_neg (by decide),
      if_neg (by decide), if_neg (by decide), if_pos rfl]
    rw [unpackU64]
    have hs : sliceGet (leBytes 8 v) 0 8 = some (leBytes 8 v) := by
      unfold sliceGet
      rw [if_pos (by simp [leBytes_length])]
      simp [List.take_of_length_le, leBytes_length]
    rw [hs]
    have hv : fromLeBytes (leBytes 8 v) = v := by
      rw [fromLeBytes_leBytes]
      exact Nat.mod_eq_of_lt (by simpa using h)
    have hins : ∀ X : Json,
        Json.mapInsert [("type", Json.str "u64")] "data" X = [("data", X), ("type", Json.str "u64")] :=
      fun X => rfl
    simp only [hv, hins]
  · intro buffer offset m out hbind hok d hget
    rw [unpack_dispatch libs buffer m offset "u64" hbind, if_neg (by decide),
      if_neg (by decide), if_neg (by decide), if_pos rfl, unpackU64] at hok
    rcases hsl : sliceGet buffer offset 8 with _ | bs <;> rw [hsl] at hok
    · cases hok
    · simp only [] at hok
      injection hok with hout
      subst hout
      rw [Json.get] at hget
      simp only [Json.as_object, Option.some_bind] at hget
      rw [Json.mapGet_insert_self] at hget
      by_cases hmax : fromLeBytes bs > MAX_SAFE_INTEGER
      · rw [if_pos hmax] at hget
        cases hget
      · rw [if_neg hmax] at hget
        injection hget with hd
        injection hd with hd2
        rw [← hd2]
        omega

unseal unpack_data unpackList get_byte_length byteLengthList in
theorem c3_witness :
    9007199254740992 < 2 ^ 64 ∧ 9007199254740991 < 2 ^ 64 ∧
    unpack_data libsI (leBytes 8 9007199254740992)
        (Json.obj [("type", Json.str "u64")]) 0 =
      Except.ok (Json.obj [("data", Json.str "9007199254740992"),
        ("type", Json.str "u64")]) ∧
    unpack_data libsI (leBytes 8 9007199254740991)
        (Json.obj [("type", Json.str "u64")]) 0 =
      Except.ok (Json.obj [("data", Json.num 9007199254740991),
        ("type", Json.str "u64")]) :=
  ⟨by norm_num, by norm_num,
    by
      have h := (c3_u64_precision libsI 9007199254740992 (by norm_num)).1
      rw [h]
      rfl,
    by
      have h := (c3_u64_precision libsI 9007199254740991 (by norm_num)).1
      rw [h]
      rfl⟩

/-- C5 (amended): the four well-known program tags are recognized in the
object descriptor form `{"type": tag}`, returning the fixed program
constants; the bare tag string is not recognized and fails as an invalid
base58 address. -/
theorem c5_well_known_tags (libs : Libs) (params : List String) (fuel : Nat) :
    parse_pubkey libs (fuel + 1) (Json.obj [("type", Json.str "system_program")]) params
      = some (Except.ok SYSTEM_PROGRAM_ID) ∧
    parse_pubkey libs (fuel + 1) (Json.obj [("type", Json.str "token_program")]) params
      = some (Except.ok TOKEN_PROGRAM_ID) ∧
    parse_pubkey libs (fuel + 1) (Json.obj [("type", Json.str "associated_token_program")]) params
      = some (Except.ok ASSOCIATED_TOKEN_PROGRAM_ID) ∧
    parse_pubkey libs (fuel + 1) (Json.obj [("type", Json.str "compute_budget_program")]) params
      = some (Except.ok COMPUTE_BUDGET_PROGRAM_ID) ∧
    parse_pubkey libs (fuel + 1) (Json.str "system_program") params
      = some (Except.error ("Invalid pubkey " ++ "system_program")) :=
  ⟨rfl, rfl, rfl, rfl, rfl⟩

/-- C5 counterexample: resolving the well-known tag in the *string*
descriptor form does not return the program constant; it fails as an
invalid address. -/
theorem c5_counterexample :
    parse_pubkey libsI 1 (Json.str "system_program") []
      = some (Except.error "Invalid pubkey system_program") := rfl


/-- The spec's parameter-reference pattern `^\$([1-9][0-9]*)$`, written
from the spec's words for comparison with `param_index` (`'1'`-`'9'` are
codepoints 49-57). -/
def spec_param_capture (s : String) : Option Nat :=
  match s.data with
  | '$' :: d :: rest =>
    if (49 ≤ d.toNat ∧ d.toNat ≤ 57) ∧ rest.all isAsciiDigit then
      some ((d :: rest).foldl (fun acc c => acc * 10 + (c.toNat - '0'.toNat)) 0)
    else none
  | _ => none

/-- C6 counterexample: `"$01"` does not match the spec's regex, so the
claim says it is returned unchanged; the code resolves it to the first
parameter. -/
theorem c6_counterexample :
    spec_param_capture "$01" = none ∧
    resolve_value (Json.str "$01") ["abc"] = Json.str "abc" ∧
    Json.str "abc" ≠ Json.str "$01" := ⟨rfl, rfl, by decide⟩

theorem digitsFold_pos {d : Char} {rest : List Char} (hd : 49 ≤ d.toNat) :
    1 ≤ (d :: rest).foldl (fun acc c => acc * 10 + (c.toNat - '0'.toNat)) 0 := by
  have hstep : ∀ (l : List Char) (acc : Nat), 1 ≤ acc →
      1 ≤ l.foldl (fun acc c => acc * 10 + (c.toNat - '0'.toNat)) acc := by
    intro l
    induction l with
    | nil => intro acc h; simpa using h
    | cons c cs ih =>
      intro acc h
      simp only [List.foldl_cons]
      exact ih _ (by omega)
  simp only [List.foldl_cons]
  refine hstep rest _ ?_
  have h0 : '0'.toNat = 48 := rfl
  omega

/-- C6 (amended): resolution is total and never errors; `resolve_value`
substitutes exactly when the string is `'$'` followed by text Rust's
`usize` parser accepts with a positive value (so, beyond the spec's
`^\$([1-9][0-9]*)$`, a leading `'+'` or leading zeros are also
accepted) and the referenced position exists; any other value is
returned unchanged; and every string the spec's regex accepts (with an
in-range value) is resolved the way the spec says. -/
theorem c6_resolution_total (s : String) (params : List String) :
    (resolve_value (Json.str s) params =
      (match param_index s with
       | some i =>
         (match params.get? i with
          | some p => Json.str p
          | none => Json.str s)
       | none => Json.str s)) ∧
    (∀ v : Json, v.as_str = none → resolve_value v params = v) ∧
    (∀ i, param_index s = some i ↔
      ∃ rest n, s.data = '$' :: rest ∧ rustParseU64 (String.mk rest) = some n ∧
        1 ≤ n ∧ i = n - 1) ∧
    (∀ k, spec_param_capture s = some k → k < 2 ^ 64 →
      param_index s = some (k - 1)) := by
  refine ⟨rfl, ?_, ?_, ?_⟩
  · intro v hv
    cases v <;> simp [Json.as_str] at hv ⊢ <;> rfl
  · intro i
    constructor
    · intro h
      rw [param_index] at h
      split at h
      · rename_i stripped heq
        split at h
        · rename_i n hn
          split at h
          · rename_i hpos
            injection h with hi
            exact ⟨stripped, n, heq, hn, by omega, by omega⟩
          · cases h
        · cases h
      · cases h
    · rintro ⟨rest, n, hdata, hparse, hpos, hi⟩
      rw [param_index, hdata]
      show (match rustParseU64 (String.mk rest) with
            | some index => if index > 0 then some (index - 1) else none
            | none => none) = some i
      rw [hparse]
      show (if n > 0 then some (n - 1) else none) = some i
      rw [if_pos (by omega : n > 0), hi]
  · intro k hk hklt
    rw [spec_param_capture] at hk
    split at hk
    · rename_i d rest heq
      split at hk
      · rename_i hcond
        injection hk with hkv
        rw [param_index, heq]
        show (match rustParseU64 (String.mk (d :: rest)) with
              | some index => if index > 0 then some (index - 1) else none
              | none => none) = some (k - 1)
        have hdnp : (match (d :: rest : List Char) with
            | '+' :: r2 => r2
            | cs => cs) = d :: rest := by
          have : d ≠ '+' := by
            intro hdp
            have h43 : d.toNat = 43 := by rw [hdp]; rfl
            omega
          split
          · rename_i heq2
            injection heq2 with h1 h2
            exact absurd h1 this
          · rfl
        have hdd : isAsciiDigit d = true := by
          simp only [isAsciiDigit, Bool.and_eq_true, decide_eq_true_eq]
          omega
        have hparse : rustParseU64 (String.mk (d :: rest)) = some k := by
          rw [rustParseU64]
          simp only [String.data]
          rw [hdnp]
          rw [if_pos ⟨by simp, by simp [List.all_cons, hdd, hcond.2]⟩]
          simp only [hkv]
          rw [if_pos hklt]
        rw [hparse]
        have hpos : 1 ≤ k := by
          rw [← hkv]
          exact digitsFold_pos hcond.1.1
        show (if k > 0 then some (k - 1) else none) = some (k - 1)
        rw [if_pos (by omega : k > 0)]
      · cases hk
    · cases hk

/-- With the cyclic parameter list `["$2", "$1"]`, resolving `"$1"`
forwards to `"$2"` and back, forever: no amount of fuel suffices. -/
theorem parse_pubkey_cycle (libs : Libs) :
    ∀ fuel : Nat,
      parse_pubkey libs fuel (Json.str "$1") ["$2", "$1"] = none ∧
      parse_pubkey libs fuel (Json.str "$2") ["$2", "$1"] = none := by
  intro fuel
  induction fuel with
  | zero => exact ⟨rfl, rfl⟩
  | succ f ih => exact ⟨ih.2, ih.1⟩

/-- C10: `parse_pubkey` does *not* terminate on every input: on the
descriptor `"$1"` with parameters `["$2", "$1"]` the resolution chain
alternates between `"$1"` and `"$2"` forever, so the fuelled embedding
returns `none` (non-termination) for every fuel. -/
theorem c10_parse_pubkey_diverges (libs : Libs) (fuel : Nat) :
    parse_pubkey libs fuel (Json.str "$1") ["$2", "$1"] = none :=
  (parse_pubkey_cycle libs fuel).1

/-- C4 (amended): a string-typed instruction data field is base58-decoded
(base64 is never attempted) and re-emitted as a `0x`-prefixed hex string
(also when empty); when base58 decoding fails the error is propagated,
so decompilation of the whole transaction fails; non-string data is
passed through. -/
theorem c4_data_normalization (ata : List Json) (signers writables : List String)
    (pid : String) (accs : List String) :
    (∀ s bytes, bs58_decode s = some bytes →
      normalize_instruction ata signers writables pid accs (Json.str s) =
        Except.ok (Json.obj
          [("accounts", Json.arr (accs.map (accountOutput ata signers writables))),
           ("data", Json.str ("0x" ++ hex_encode bytes)),
           ("program_id", Json.str pid)])) ∧
    (∀ s, bs58_decode s = none →
      normalize_instruction ata signers writables pid accs (Json.str s) =
        Except.error "Invalid base58 data") ∧
    (∀ d : Json, d.as_str = none →
      normalize_instruction ata signers writables pid accs d =
        Except.ok (Json.obj
          [("accounts", Json.arr (accs.map (accountOutput ata signers writables))),
           ("data", d), ("program_id", Json.str pid)])) := by
  refine ⟨?_, ?_, ?_⟩
  · intro s bytes hdec
    rw [normalize_instruction, decode_base58_to_hex, hdec]
  · intro s hdec
    rw [normalize_instruction, decode_base58_to_hex, hdec]
  · intro d hd
    cases d <;> first
      | rfl
      | (simp [Json.as_str] at hd)

/-- C4 counterexample: `"!"` is not valid base58; the decompiler does not
leave the original string untouched, it propagates an error. -/
theorem c4_counterexample :
    normalize_instruction [] [] [] "Prog" [] (Json.str "!") =
      Except.error "Invalid base58 data" := rfl

/-- Classifier for the `InvalidAddress` error family of this codebase:
messages beginning `Invalid pubkey`. -/
def isInvalidAddressMsg (e : String) : Bool :=
  decide (e.data.take 14 = "Invalid pubkey".data)

theorem isInvalidAddressMsg_append (s : String) :
    isInvalidAddressMsg ("Invalid pubkey " ++ s) = true := by rfl

/-- C7 (amended): resolving `{type:"ata", owner, mint}` with successfully
resolved owner `O` and mint `M` deterministically returns the
program-derived address for the seed ordering
`[O, token_program_id, M]` under the associated-token program id; when
either sub-descriptor fails -- the owner, or the mint after the owner
resolved -- its own error is propagated unchanged; and a sub-field that
is an unresolvable address string fails with the `InvalidAddress`-family
error `Invalid pubkey <s>` (other error kinds propagate as themselves,
see the counterexample). -/
theorem c7_ata_derivation (libs : Libs) (m : List (String × Json)) (owner mint : Json)
    (params : List String) (fuel : Nat) (O M : Pubkey)
    (ht : Json.mapGet m "type" = some (Json.str "ata"))
    (ho : Json.mapGet m "owner" = some owner)
    (hmi : Json.mapGet m "mint" = some mint)
    (hO : parse_pubkey libs fuel owner params = some (Except.ok O))
    (hM : parse_pubkey libs fuel mint params = some (Except.ok M)) :
    parse_pubkey libs (fuel + 1) (Json.obj m) params =
      some (Except.ok (libs.find_program_address
        [O.bytes, TOKEN_PROGRAM_ID.bytes, M.bytes] ASSOCIATED_TOKEN_PROGRAM_ID)) ∧
    (∀ (e : String) (f : Nat),
      parse_pubkey libs f owner params = some (Except.error e) →
      parse_pubkey libs (f + 1) (Json.obj m) params = some (Except.error e)) ∧
    (∀ (e : String) (f : Nat) (O2 : Pubkey),
      parse_pubkey libs f owner params = some (Except.ok O2) →
      parse_pubkey libs f mint params = some (Except.error e) →
      parse_pubkey libs (f + 1) (Json.obj m) params = some (Except.error e)) ∧
    (∀ (s : String) (f : Nat),
      resolve_value (Json.str s) params = Json.str s →
      Pubkey.from_str s = none →
      parse_pubkey libs (f + 1) (Json.str s) params =
        some (Except.error ("Invalid pubkey " ++ s)) ∧
      isInvalidAddressMsg ("Invalid pubkey " ++ s) = true) := by
  refine ⟨?_, ?_, ?_, ?_⟩
  · rw [parse_pubkey]
    simp only [ht, Option.some_bind, Json.as_str]
    rw [if_pos trivial]
    simp only [ho, hmi, hO, hM]
  · intro e f hOerr
    rw [parse_pubkey]
    simp only [ht, Option.some_bind, Json.as_str]
    rw [if_pos trivial]
    simp only [ho, hmi, hOerr]
  · intro e f O2 hOok hMerr
    rw [parse_pubkey]
    simp only [ht, Option.some_bind, Json.as_str]
    rw [if_pos trivial]
    simp only [ho, hmi, hOok, hMerr]
  · intro s f hres hfs
    refine ⟨?_, isInvalidAddressMsg_append s⟩
    rw [parse_pubkey]
    show (if resolve_value (Json.str s) params ≠ Json.str s
          then parse_pubkey libs f (resolve_value (Json.str s) params) params
          else match (resolve_value (Json.str s) params).as_str with
               | none => some (Except.error "Invalid pubkey value")
               | some s2 =>
                 match Pubkey.from_str s2 with
                 | some pk => some (Except.ok pk)
                 | none => some (Except.error ("Invalid pubkey " ++ s2))) = _
    rw [hres, if_neg (by simp)]
    show (match Pubkey.from_str s with
          | some pk => some (Except.ok pk)
          | none => some (Except.error ("Invalid pubkey " ++ s))) = _
    rw [hfs]

/-- C7 counterexample: when the owner sub-descriptor fails with an
*unsupported descriptor* error, the `ata` resolution propagates that
error rather than an `InvalidAddress` one, contradicting the claim's
"fails with InvalidAddress if either sub-descriptor fails". -/
theorem c7_counterexample :
    parse_pubkey libsI 3 (Json.obj
      [("mint", Json.obj [("type", Json.str "token_program")]),
       ("owner", Json.obj [("type", Json.str "bogus")]),
       ("type", Json.str "ata")]) []
      = some (Except.error "Unsupported pubkey type: bogus") ∧
    isInvalidAddressMsg "Unsupported pubkey type: bogus" = false := ⟨rfl, by decide⟩

theorem c7_witness :
    (Json.mapGet [("mint", Json.obj [("type", Json.str "token_program")]),
       ("owner", Json.obj [("type", Json.str "system_program")]),
       ("type", Json.str "ata")] "type" = some (Json.str "ata")) ∧
    (parse_pubkey libsI 2 (Json.obj
      [("mint", Json.obj [("type", Json.str "token_program")]),
       ("owner", Json.obj [("type", Json.str "system_program")]),
       ("type", Json.str "ata")]) [] =
      some (Except.ok (libsI.find_program_address
        [SYSTEM_PROGRAM_ID.bytes, TOKEN_PROGRAM_ID.bytes, TOKEN_PROGRAM_ID.bytes]
        ASSOCIATED_TOKEN_PROGRAM_ID)) ∧
    (∀ (e : String) (f : Nat),
      parse_pubkey libsI f (Json.obj [("type", Json.str "system_program")]) []
        = some (Except.error e) →
      parse_pubkey libsI (f + 1) (Json.obj
        [("mint", Json.obj [("type", Json.str "token_program")]),
         ("owner", Json.obj [("type", Json.str "system_program")]),
         ("type", Json.str "ata")]) [] = some (Except.error e)) ∧
    (∀ (e : String) (f : Nat) (O2 : Pubkey),
      parse_pubkey libsI f (Json.obj [("type", Json.str "system_program")]) []
        = some (Except.ok O2) →
      parse_pubkey libsI f (Json.obj [("type", Json.str "token_program")]) []
        = some (Except.error e) →
      parse_pubkey libsI (f + 1) (Json.obj
        [("mint", Json.obj [("type", Json.str "token_program")]),
         ("owner", Json.obj [("type", Json.str "system_program")]),
         ("type", Json.str "ata")]) [] = some (Except.error e)) ∧
    (∀ (s : String) (f : Nat),
      resolve_value (Json.str s) [] = Json.str s →
      Pubkey.from_str s = none →
      parse_pubkey libsI (f + 1) (Json.str s) [] =
        some (Except.error ("Invalid pubkey " ++ s)) ∧
      isInvalidAddressMsg ("Invalid pubkey " ++ s) = true)) :=
  ⟨rfl,
    c7_ata_derivation libsI _ (Json.obj [("type", Json.str "system_program")])
      (Json.obj [("type", Json.str "token_program")]) [] 1 SYSTEM_PROGRAM_ID TOKEN_PROGRAM_ID
      rfl rfl rfl rfl rfl⟩

lemma findIdx_of_get (l : List String) (x : String) (i : Nat)
    (hn : l.Nodup) (h : l.get? i = some x) :
    l.findIdx? (fun y => y = x) = some i := by
  induction l generalizing i with
  | nil => simp at h
  | cons a t ih =>
    cases i with
    | zero =>
      simp only [List.get?] at h
      injection h with h
      subst h
      simp [List.findIdx?_cons]
    | succ i =>
      simp only [List.get?] at h
      have hx : x ∈ t := List.get?_mem h
      have hne : ¬ (a = x) := fun hax => (List.nodup_cons.mp hn).1 (hax ▸ hx)
      rw [List.findIdx?_cons]
      simp only [decide_eq_true_eq]
      rw [if_neg hne, List.findIdx?_succ, ih i (List.nodup_cons.mp hn).2 h]
      rfl

lemma findIdx_of_not_mem (l : List String) (x : String) (h : x ∉ l) :
    l.findIdx? (fun y => y = x) = none := by
  induction l with
  | nil => rfl
  | cons a t ih =>
    have hne : ¬ (a = x) := fun hax => h (by rw [hax]; exact List.mem_cons_self x t)
    rw [List.findIdx?_cons]
    simp only [decide_eq_true_eq]
    rw [if_neg hne, List.findIdx?_succ,
        ih (fun hx => h (List.mem_cons_of_mem a hx))]
    rfl

/-- The full statement of claim C8, for one instruction-account address
`a` of a transaction with account metas `infos`: signer addresses become
`$k` placeholders (1-based first-seen position), an `ata` descriptor is
substituted only in its `owner` field, and the top-level signer list is
the trailing placeholders `$(n+1) … $(2n)`. -/
def C8Stmt (libs : Libs) (infos : List AccountInfo) (a : String) : Prop :=
  (∀ i, (signersAccounts infos).get? i = some a →
    (find_ata_accounts libs (txAccounts infos)).find? (fun ata =>
        (Json.get ata "pubkey").bind Json.as_str = some a) = none →
    Json.get (accountOutput (find_ata_accounts libs (txAccounts infos))
        (signersAccounts infos) (writableAccounts infos) a) "pubkey" =
      some (Json.str ("$" ++ toString (i + 1))) ∧
    i + 1 ≤ (signersAccounts infos).length) ∧
  (∀ o mnt, (find_ata_accounts libs (txAccounts infos)).find? (fun ata =>
        (Json.get ata "pubkey").bind Json.as_str = some a) = some (ataEntry o mnt a) →
    (∀ io, (signersAccounts infos).get? io = some o →
      Json.get (accountOutput (find_ata_accounts libs (txAccounts infos))
          (signersAccounts infos) (writableAccounts infos) a) "pubkey" =
        some (Json.obj [("mint", Json.str mnt),
          ("owner", Json.str ("$" ++ toString (io + 1))),
          ("type", Json.str "ata")])) ∧
    (o ∉ signersAccounts infos →
      Json.get (accountOutput (find_ata_accounts libs (txAccounts infos))
          (signersAccounts infos) (writableAccounts infos) a) "pubkey" =
        some (Json.obj [("mint", Json.str mnt), ("owner", Json.str o),
          ("type", Json.str "ata")]))) ∧
  ((signersJson (signersAccounts infos)).length = (signersAccounts infos).length ∧
   ∀ i, i < (signersAccounts infos).length →
     (signersJson (signersAccounts infos)).get? i =
       some (Json.str ("$" ++ toString ((signersAccounts infos).length + i + 1))))

/-- C8: in the decompiler output, an instruction-account address equal to
the `i`-th signer (0-based) and not matched by an ATA record is emitted
as the placeholder `$(i+1)`; an address matched by an ATA record becomes
an `ata` descriptor whose `owner` field alone receives the signer
substitution (the `mint` field is left verbatim); and the emitted
top-level signers list is exactly `$(n+1) … $(2n)` for `n` signers.
Stated for transactions whose account addresses are pairwise distinct. -/
theorem c8_signer_placeholders (libs : Libs) (infos : List AccountInfo) (a : String)
    (hnodup : (txAccounts infos).Nodup) : C8Stmt libs infos a := by
  have hS : (signersAccounts infos).Nodup := by
    have h1 : (infos.filter (fun k => k.signer)).Sublist infos := List.filter_sublist _
    have h2 : ((infos.filter (fun k => k.signer)).map (fun k => k.pubkey)).Sublist
        (infos.map (fun k => k.pubkey)) := List.Sublist.map _ h1
    exact List.Nodup.sublist h2 hnodup
  refine ⟨?_, ?_, ?_, ?_⟩
  · intro i hi hfind
    have hpv : ataPubkeyValue (find_ata_accounts libs (txAccounts infos)) a = Json.str a := by
      unfold ataPubkeyValue
      rw [hfind]
    refine ⟨?_, ?_⟩
    · show some (signerSubstitute (signersAccounts infos)
        (ataPubkeyValue (find_ata_accounts libs (txAccounts infos)) a)) = _
      rw [hpv]
      simp only [signerSubstitute]
      rw [findIdx_of_get _ _ _ hS hi]
    · obtain ⟨hlt, -⟩ := List.get?_eq_some.mp hi
      omega
  · intro o mnt hfind
    have hpv : ataPubkeyValue (find_ata_accounts libs (txAccounts infos)) a =
        Json.obj [("mint", Json.str mnt), ("owner", Json.str o),
          ("type", Json.str "ata")] := by
      unfold ataPubkeyValue
      rw [hfind]
      rfl
    constructor
    · intro io hio
      show some (signerSubstitute (signersAccounts infos)
        (ataPubkeyValue (find_ata_accounts libs (txAccounts infos)) a)) = _
      rw [hpv]
      simp only [signerSubstitute, Json.mapGet, Json.as_str, Option.some_bind, String.reduceEq,
        reduceIte]
      rw [findIdx_of_get _ _ _ hS hio]
      rfl
    · intro ho
      show some (signerSubstitute (signersAccounts infos)
        (ataPubkeyValue (find_ata_accounts libs (txAccounts infos)) a)) = _
      rw [hpv]
      simp only [signerSubstitute, Json.mapGet, Json.as_str, Option.some_bind, String.reduceEq,
        reduceIte]
      rw [findIdx_of_not_mem _ _ ho]
  · simp [signersJson]
  · intro i hi
    rw [signersJson, List.get?_map, List.get?_range hi]
    rfl

theorem c8_witness :
    C8Stmt libsI [⟨"A", true, true⟩, ⟨"B", false, true⟩] "A" :=
  c8_signer_placeholders libsI [⟨"A", true, true⟩, ⟨"B", false, true⟩] "A" (by decide)

/-! ### The class of values that pack/unpack losslessly

`GoodValue` delimits the typed values for which the packer's output is
decoded back to the very same value: scalar schemas (`u8`/`u16`/`u32`/
`u64`) carrying an in-range JSON number (for `u64`, within
`MAX_SAFE_INTEGER`), and `object` schemas whose map is exactly the
`data`(/`name`)/`type` shape the unpacker re-emits, with losslessly
packable entries. -/
mutual
inductive GoodValue : Json → Prop where
  | scalar : ∀ (m : List (String × Json)) (kind : String) (n : Int) (w : Nat),
      sortedKeys m = true →
      Json.mapGet m "type" = some (Json.str kind) →
      Json.mapGet m "data" = some (Json.num n) →
      ((kind = "u8" ∧ w = 1) ∨ (kind = "u16" ∧ w = 2) ∨
        (kind = "u32" ∧ w = 4) ∨ (kind = "u64" ∧ w = 8)) →
      0 ≤ n → n < 2 ^ (8 * w) → n ≤ (9007199254740991 : Int) →
      GoodValue (Json.obj m)
  | object : ∀ es : List Json, GoodList es →
      GoodValue (Json.obj [("data", Json.arr es), ("type", Json.str "object")])
  | objectNamed : ∀ (es : List Json) (nm : Json), GoodList es →
      GoodValue (Json.obj
        [("data", Json.arr es), ("name", nm), ("type", Json.str "object")])

inductive GoodList : List Json → Prop where
  | nil : GoodList []
  | cons : ∀ {e : Json} {rest : List Json},
      GoodValue e → GoodList rest → GoodList (e :: rest)
end

/-- Dispatch of `pack_data` on an object whose `"type"` is known. -/
theorem pack_dispatch (libs : Libs) (f : Nat) (m : List (String × Json))
    (params : List String) (kind : String)
    (hbind : (Json.mapGet m "type").bind Json.as_str = some kind) :
    pack_data libs (f + 1) (Json.obj m) params =
      (if kind = "u8" then
         match Json.mapGet m "data" with
         | none => some (Except.error "Missing data")
         | some data =>
           match parse_u64 (resolve_value data params) with
           | Except.error e => some (Except.error e)
           | Except.ok v => some (Except.ok [v % 256])
       else if kind = "u16" then
         match Json.mapGet m "data" with
         | none => some (Except.error "Missing data")
         | some data =>
           match parse_u64 (resolve_value data params) with
           | Except.error e => some (Except.error e)
           | Except.ok v => some (Except.ok (leBytes 2 (v % 2 ^ 16)))
       else if kind = "u32" then
         match Json.mapGet m "data" with
         | none => some (Except.error "Missing data")
         | some data =>
           match parse_u64 (resolve_value data params) with
           | Except.error e => some (Except.error e)
           | Except.ok v => some (Except.ok (leBytes 4 (v % 2 ^ 32)))
       else if kind = "u64" then
         match Json.mapGet m "data" with
         | none => some (Except.error "Missing data")
         | some data =>
           match parse_u64 (resolve_value data params) with
           | Except.error e => some (Except.error e)
           | Except.ok v => some (Except.ok (leBytes 8 v))
       else if kind = "pubkey" then
         match Json.mapGet m "data" with
         | none => some (Except.error "Missing data")
         | some data =>
           match parse_pubkey libs f data params with
           | none => none
           | some (Except.error e) => some (Except.error e)
           | some (Except.ok pubkey) => some (Except.ok pubkey.bytes)
       else if kind = "string" ∨ kind = "bytes" then
         match Json.mapGet m "data" with
         | none => some (Except.error "Missing data")
         | some data => pack_data libs f data params
       else if kind = "object" then
         match Json.mapGet m "data" with
         | none => some (Except.error "Missing data")
         | some data =>
           let resolved2 := resolve_value data params
           let parsed :=
             match resolved2 with
             | Json.str text =>
               if trimStartHead text = some '[' ∨
                   trimStartHead text = some (Char.ofNat 123)
               then (libs.json_from_str text).getD resolved2
               else resolved2
             | _ => resolved2
           match parsed.as_array with
           | none => some (Except.error "Object data must be array")
           | some list => packList libs f list params
       else some (Except.error ("Unsupported data object type: " ++ kind))) := by
  rw [pack_data]
  simp only [resolve_value]
  rw [hbind]

theorem pack_scalar_eq (libs : Libs) (f : Nat) (m : List (String × Json))
    (params : List String) (kind : String) (w : Nat) (n : Int)
    (hbind : (Json.mapGet m "type").bind Json.as_str = some kind)
    (hd : Json.mapGet m "data" = some (Json.num n))
    (hw : (kind = "u8" ∧ w = 1) ∨ (kind = "u16" ∧ w = 2) ∨
      (kind = "u32" ∧ w = 4) ∨ (kind = "u64" ∧ w = 8))
    (h0 : 0 ≤ n) (hlt : n < 2 ^ (8 * w)) :
    pack_data libs (f + 1) (Json.obj m) params =
      some (Except.ok (leBytes w n.toNat)) := by
  have hlt64 : n < 2 ^ 64 := by
    rcases hw with ⟨_, rfl⟩ | ⟨_, rfl⟩ | ⟨_, rfl⟩ | ⟨_, rfl⟩ <;> norm_num at hlt ⊢ <;> omega
  have hpu : parse_u64 (resolve_value (Json.num n) params) = Except.ok n.toNat := by
    show parse_u64 (Json.num n) = _
    simp only [parse_u64, Json.as_u64]
    rw [if_pos ⟨h0, hlt64⟩]
  rw [pack_dispatch libs f m params kind hbind]
  rcases hw with ⟨rfl, rfl⟩ | ⟨rfl, rfl⟩ | ⟨rfl, rfl⟩ | ⟨rfl, rfl⟩
  · rw [if_pos rfl, hd]
    show (match parse_u64 (resolve_value (Json.num n) params) with
          | Except.error e => some (Except.error e)
          | Except.ok v => some (Except.ok [v % 256])) = _
    rw [hpu]
    rfl
  · rw [if_neg (by decide), if_pos rfl, hd]
    show (match parse_u64 (resolve_value (Json.num n) params) with
          | Except.error e => some (Except.error e)
          | Except.ok v => some (Except.ok (leBytes 2 (v % 2 ^ 16)))) = _
    rw [hpu]
    show some (Except.ok (leBytes 2 (n.toNat % 2 ^ 16))) = _
    norm_num at hlt
    rw [Nat.mod_eq_of_lt (by omega)]
  · rw [if_neg (by decide), if_neg (by decide), if_pos rfl, hd]
    show (match parse_u64 (resolve_value (Json.num n) params) with
          | Except.error e => some (Except.error e)
          | Except.ok v => some (Except.ok (leBytes 4 (v % 2 ^ 32)))) = _
    rw [hpu]
    show some (Except.ok (leBytes 4 (n.toNat % 2 ^ 32))) = _
    norm_num at hlt
    rw [Nat.mod_eq_of_lt (by omega)]
  · rw [if_neg (by decide), if_neg (by decide), if_neg (by decide), if_pos rfl, hd]
    show (match parse_u64 (resolve_value (Json.num n) params) with
          | Except.error e => some (Except.error e)
          | Except.ok v => some (Except.ok (leBytes 8 v))) = _
    rw [hpu]

theorem gbl_scalar (m : List (String × Json)) (kind : String) (w : Nat)
    (hbind : (Json.mapGet m "type").bind Json.as_str = some kind)
    (hw : (kind = "u8" ∧ w = 1) ∨ (kind = "u16" ∧ w = 2) ∨
      (kind = "u32" ∧ w = 4) ∨ (kind = "u64" ∧ w = 8)) :
    get_byte_length (Json.obj m) = Except.ok w := by
  rw [get_byte_length]
  rcases hw with ⟨rfl, rfl⟩ | ⟨rfl, rfl⟩ | ⟨rfl, rfl⟩ | ⟨rfl, rfl⟩ <;>
    simp [Json.as_object, hbind]

theorem unpack_scalar_round (libs : Libs) (m : List (String × Json))
    (kind : String) (w : Nat) (n : Int) (pre post : List Nat)
    (hs : sortedKeys m = true)
    (hbind : (Json.mapGet m "type").bind Json.as_str = some kind)
    (hd : Json.mapGet m "data" = some (Json.num n))
    (hw : (kind = "u8" ∧ w = 1) ∨ (kind = "u16" ∧ w = 2) ∨
      (kind = "u32" ∧ w = 4) ∨ (kind = "u64" ∧ w = 8))
    (h0 : 0 ≤ n) (hlt : n < 2 ^ (8 * w)) (hsafe : n ≤ (9007199254740991 : Int)) :
    unpack_data libs (pre ++ leBytes w n.toNat ++ post) (Json.obj m) pre.length
      = Except.ok (Json.obj m) := by
  rw [unpack_dispatch libs _ m _ kind hbind]
  rcases hw with ⟨rfl, rfl⟩ | ⟨rfl, rfl⟩ | ⟨rfl, rfl⟩ | ⟨rfl, rfl⟩
  · rw [if_pos rfl, unpackU8]
    have h256 : n.toNat < 256 := by norm_num at hlt; omega
    have hle : leBytes 1 n.toNat = [n.toNat] := by
      simp [leBytes, Nat.mod_eq_of_lt h256]
    rw [hle, show pre ++ [n.toNat] ++ post = pre ++ n.toNat :: post from by simp,
        listGet_append]
    show Except.ok (Json.obj (Json.mapInsert m "data" (Json.num (n.toNat : Int)))) = _
    rw [show ((n.toNat : Int)) = n from Int.toNat_of_nonneg h0,
        Json.mapInsert_self_of_sorted m "data" (Json.num n) hs hd]
  · rw [if_neg (by decide), if_pos rfl, unpackU16]
    have hsg := sliceGet_append pre (leBytes 2 n.toNat) post
    rw [leBytes_length] at hsg
    rw [hsg]
    show Except.ok (Json.obj (Json.mapInsert m "data"
        (Json.num (fromLeBytes (leBytes 2 n.toNat) : Int)))) = _
    have hmod : n.toNat % 2 ^ (8 * 2) = n.toNat :=
      Nat.mod_eq_of_lt (by norm_num at hlt ⊢; omega)
    rw [fromLeBytes_leBytes, hmod,
        show ((n.toNat : Int)) = n from Int.toNat_of_nonneg h0,
        Json.mapInsert_self_of_sorted m "data" (Json.num n) hs hd]
  · rw [if_neg (by decide), if_neg (by decide), if_pos rfl, unpackU32]
    have hsg := sliceGet_append pre (leBytes 4 n.toNat) post
    rw [leBytes_length] at hsg
    rw [hsg]
    show Except.ok (Json.obj (Json.mapInsert m "data"
        (Json.num (fromLeBytes (leBytes 4 n.toNat) : Int)))) = _
    have hmod : n.toNat % 2 ^ (8 * 4) = n.toNat :=
      Nat.mod_eq_of_lt (by norm_num at hlt ⊢; omega)
    rw [fromLeBytes_leBytes, hmod,
        show ((n.toNat : Int)) = n from Int.toNat_of_nonneg h0,
        Json.mapInsert_self_of_sorted m "data" (Json.num n) hs hd]
  · rw [if_neg (by decide), if_neg (by decide), if_neg (by decide), if_pos rfl, unpackU64]
    have hsg := sliceGet_append pre (leBytes 8 n.toNat) post
    rw [leBytes_length] at hsg
    rw [hsg]
    have hfl : fromLeBytes (leBytes 8 n.toNat) = n.toNat := by
      rw [fromLeBytes_leBytes]
      exact Nat.mod_eq_of_lt (by norm_num at hlt ⊢; omega)
    show Except.ok (Json.obj (Json.mapInsert m "data"
        (if fromLeBytes (leBytes 8 n.toNat) > MAX_SAFE_INTEGER
         then Json.str (toString (fromLeBytes (leBytes 8 n.toNat)))
         else Json.num (fromLeBytes (leBytes 8 n.toNat) : Int)))) = _
    rw [hfl, if_neg (by simp only [MAX_SAFE_INTEGER]; omega),
        show ((n.toNat : Int)) = n from Int.toNat_of_nonneg h0,
        Json.mapInsert_self_of_sorted m "data" (Json.num n) hs hd]

theorem pack_object_eq (libs : Libs) (f : Nat) (m : List (String × Json))
    (params : List String) (es : List Json)
    (hbind : (Json.mapGet m "type").bind Json.as_str = some "object")
    (hd : Json.mapGet m "data" = some (Json.arr es)) :
    pack_data libs (f + 1) (Json.obj m) params = packList libs f es params := by
  rw [pack_dispatch libs f m params "object" hbind,
      if_neg (by decide), if_neg (by decide), if_neg (by decide), if_neg (by decide),
      if_neg (by decide), if_neg (by decide), if_pos rfl, hd]
  rfl

theorem unpack_object_eq (libs : Libs) (buffer : List Nat) (offset : Nat)
    (m : List (String × Json)) (es : List Json)
    (hbind : (Json.mapGet m "type").bind Json.as_str = some "object")
    (hd : Json.mapGet m "data" = some (Json.arr es)) :
    unpack_data libs buffer (Json.obj m) offset =
      (match unpackList libs buffer es offset with
       | Except.error e => Except.error e
       | Except.ok out_list => Except.ok (Json.obj (objectOut m out_list))) := by
  rw [unpack_dispatch libs buffer m offset "object" hbind,
      if_neg (by decide), if_neg (by decide), if_neg (by decide), if_neg (by decide),
      if_neg (by decide), if_neg (by decide), if_neg (by decide), if_neg (by decide),
      if_pos rfl, hd]
  rfl

theorem gbl_object (m : List (String × Json)) (es : List Json) (r : Nat)
    (hbind : (Json.mapGet m "type").bind Json.as_str = some "object")
    (hd : Json.mapGet m "data" = some (Json.arr es))
    (hb : byteLengthList es = Except.ok r) :
    get_byte_length (Json.obj m) = Except.ok r := by
  rw [get_byte_length]
  simp only [Json.as_object, hbind, String.reduceEq, reduceIte]
  split
  · rename_i heq
    rw [hd] at heq
    simp [Json.as_array] at heq
  · rename_i list heq
    rw [hd] at heq
    simp only [Option.some_bind, Json.as_array, Option.some.injEq] at heq
    subst heq
    exact hb

theorem scalar_case (libs : Libs) (f : Nat) (m : List (String × Json))
    (params : List String) (kind : String) (w : Nat) (n : Int) (bytes : List Nat)
    (hs : sortedKeys m = true)
    (hbind : (Json.mapGet m "type").bind Json.as_str = some kind)
    (heqd : Json.mapGet m "data" = some (Json.num n))
    (hw : (kind = "u8" ∧ w = 1) ∨ (kind = "u16" ∧ w = 2) ∨
      (kind = "u32" ∧ w = 4) ∨ (kind = "u64" ∧ w = 8))
    (h0 : 0 ≤ n) (hlt : n < 2 ^ (8 * w)) (hsafe : n ≤ (9007199254740991 : Int))
    (hp : pack_data libs (f + 1) (Json.obj m) params = some (Except.ok bytes)) :
    (∀ pre post : List Nat,
      unpack_data libs (pre ++ bytes ++ post) (Json.obj m) pre.length =
        Except.ok (Json.obj m)) ∧
    get_byte_length (Json.obj m) = Except.ok bytes.length := by
  rw [pack_scalar_eq libs f m params kind w n hbind heqd hw h0 hlt] at hp
  injection hp with hp
  injection hp with hp
  subst hp
  refine ⟨fun pre post =>
    unpack_scalar_round libs m kind w n pre post hs hbind heqd hw h0 hlt hsafe, ?_⟩
  rw [leBytes_length]
  exact gbl_scalar m kind w hbind hw

theorem packRoundAux (libs : Libs) (params : List String) (fuel : Nat) :
    (∀ v bytes, GoodValue v →
        pack_data libs fuel v params = some (Except.ok bytes) →
        (∀ pre post : List Nat,
          unpack_data libs (pre ++ bytes ++ post) v pre.length = Except.ok v) ∧
        get_byte_length v = Except.ok bytes.length) ∧
    (∀ es bytes, GoodList es →
        packList libs fuel es params = some (Except.ok bytes) →
        (∀ pre post : List Nat,
          unpackList libs (pre ++ bytes ++ post) es pre.length = Except.ok es) ∧
        byteLengthList es = Except.ok bytes.length) := by
  induction fuel with
  | zero =>
    constructor
    · intro v bytes hg hp
      simp [pack_data] at hp
    · intro es bytes hg hp
      cases es with
      | nil =>
        rw [packList] at hp
        injection hp with hp
        injection hp with hp
        subst hp
        refine ⟨fun pre post => by rw [unpackList], ?_⟩
        rw [byteLengthList]
        rfl
      | cons e rest =>
        rw [packList] at hp
        rw [show pack_data libs 0 e params = none from by simp [pack_data]] at hp
        simp at hp
  | succ f ih =>
    have hP : ∀ v bytes, GoodValue v →
        pack_data libs (f + 1) v params = some (Except.ok bytes) →
        (∀ pre post : List Nat,
          unpack_data libs (pre ++ bytes ++ post) v pre.length = Except.ok v) ∧
        get_byte_length v = Except.ok bytes.length := by
      intro v bytes hg hp
      cases hg with
      | scalar m kind n w hs heqt heqd hw h0 hlt hsafe =>
        have hbind : (Json.mapGet m "type").bind Json.as_str = some kind := by
          rw [heqt]; rfl
        exact scalar_case libs f m params kind w n bytes hs hbind heqd hw h0 hlt hsafe hp
      | object es hes =>
        rw [pack_object_eq libs f _ params es (by rfl) (by rfl)] at hp
        obtain ⟨hu, hb⟩ := ih.2 es bytes hes hp
        refine ⟨fun pre post => ?_, ?_⟩
        · rw [unpack_object_eq libs _ _ _ es (by rfl) (by rfl)]
          simp only [hu pre post]
          rw [objectOut_none es (by rfl)]
        · exact gbl_object _ es _ (by rfl) (by rfl) hb
      | objectNamed es nm hes =>
        rw [pack_object_eq libs f _ params es (by rfl) (by rfl)] at hp
        obtain ⟨hu, hb⟩ := ih.2 es bytes hes hp
        refine ⟨fun pre post => ?_, ?_⟩
        · rw [unpack_object_eq libs _ _ _ es (by rfl) (by rfl)]
          simp only [hu pre post]
          rw [objectOut_name es (by rfl)]
        · exact gbl_object _ es _ (by rfl) (by rfl) hb
    refine ⟨hP, ?_⟩
    intro es
    induction es with
    | nil =>
      intro bytes hg hp
      rw [packList] at hp
      injection hp with hp
      injection hp with hp
      subst hp
      refine ⟨fun pre post => by rw [unpackList], ?_⟩
      rw [byteLengthList]
      rfl
    | cons e rest ihr =>
      intro bytes hg hp
      obtain ⟨hge, hgr⟩ : GoodValue e ∧ GoodList rest := by cases hg; exact ⟨by assumption, by assumption⟩
      rw [packList] at hp
      cases hpe : pack_data libs (f + 1) e params with
      | none => rw [hpe] at hp; simp at hp
      | some r1 =>
        cases r1 with
        | error err => rw [hpe] at hp; simp at hp
        | ok b1 =>
          rw [hpe] at hp
          cases hpr : packList libs (f + 1) rest params with
          | none => rw [hpr] at hp; simp at hp
          | some r2 =>
            cases r2 with
            | error err => rw [hpr] at hp; simp at hp
            | ok b2 =>
              rw [hpr] at hp
              simp only [Option.some.injEq, Except.ok.injEq] at hp
              subst hp
              obtain ⟨hu1, hl1⟩ := hP e b1 hge hpe
              obtain ⟨hur, hlr⟩ := ihr b2 hgr hpr
              constructor
              · intro pre post
                rw [unpackList]
                have he1 : unpack_data libs (pre ++ (b1 ++ b2) ++ post) e pre.length =
                    Except.ok e := by
                  have h := hu1 pre (b2 ++ post)
                  rw [show pre ++ b1 ++ (b2 ++ post) = pre ++ (b1 ++ b2) ++ post from by
                    simp] at h
                  exact h
                have he2 : unpackList libs (pre ++ (b1 ++ b2) ++ post) rest
                    (pre.length + b1.length) = Except.ok rest := by
                  have h := hur (pre ++ b1) post
                  rw [show pre ++ b1 ++ b2 ++ post = pre ++ (b1 ++ b2) ++ post from by simp,
                      show (pre ++ b1).length = pre.length + b1.length from by simp] at h
                  exact h
                simp only [he1, hl1, he2]
              · rw [byteLengthList]
                simp only [hl1, hlr]
                simp

/-- C1 (amended): packing is lossless exactly on the `GoodValue` class:
for a typed value `v` whose schema is itself (`u8`/`u16`/`u32`/`u64`
objects with an in-range numeric `data`, and `object` schemas of the
exact `data`(/`name`)/`type` shape with such entries), unpacking the
packed bytes against `v` at offset 0 returns `v` itself.  Outside this
class the round trip can change the value (see the counterexample:
`u8` data 256 is truncated to 0). -/
theorem c1_pack_unpack_roundtrip (libs : Libs) (params : List String) (fuel : Nat)
    (v : Json) (bytes : List Nat)
    (hg : GoodValue v)
    (hp : pack_data libs fuel v params = some (Except.ok bytes)) :
    unpack_data libs bytes v 0 = Except.ok v := by
  have h := ((packRoundAux libs params fuel).1 v bytes hg hp).1 [] []
  simp only [List.nil_append, List.append_nil, List.length_nil] at h
  exact h

unseal pack_data packList unpack_data unpackList in
theorem c1_witness :
    unpack_data libsI [1]
      (Json.obj [("data", Json.num 1), ("type", Json.str "u8")]) 0 =
      Except.ok (Json.obj [("data", Json.num 1), ("type", Json.str "u8")]) :=
  c1_pack_unpack_roundtrip libsI [] 1 _ [1]
    (GoodValue.scalar _ "u8" 1 1 (by decide) rfl rfl (Or.inl ⟨rfl, rfl⟩)
      (by decide) (by decide) (by decide))
    rfl

unseal pack_data packList unpack_data unpackList in
theorem c1_counterexample :
    pack_data libsI 1 (Json.obj [("data", Json.num 256), ("type", Json.str "u8")]) []
      = some (Except.ok [0]) ∧
    unpack_data libsI [0] (Json.obj [("data", Json.num 256), ("type", Json.str "u8")]) 0
      = Except.ok (Json.obj [("data", Json.num 0), ("type", Json.str "u8")]) ∧
    Json.obj [("data", Json.num 0), ("type", Json.str "u8")] ≠
      Json.obj [("data", Json.num 256), ("type", Json.str "u8")] :=
  ⟨rfl, rfl, by decide⟩

/-- C2 (amended): on the `GoodValue` class the unpacker consumes exactly
the bytes the packer produced: unpacking succeeds and `get_byte_length`
of the result equals the packed length.  Outside the class this fails:
`bytes`/`string` schemas pack but do not unpack at all, because the
unpacker reads the capitalised key `"Size"`/a missing `"Length"` (see
the counterexample). -/
theorem c2_length_agreement (libs : Libs) (params : List String) (fuel : Nat)
    (v : Json) (bytes : List Nat)
    (hg : GoodValue v)
    (hp : pack_data libs fuel v params = some (Except.ok bytes)) :
    ∃ out, unpack_data libs bytes v 0 = Except.ok out ∧
      get_byte_length out = Except.ok bytes.length := by
  obtain ⟨hu, hb⟩ := (packRoundAux libs params fuel).1 v bytes hg hp
  refine ⟨v, ?_, hb⟩
  have h := hu [] []
  simp only [List.nil_append, List.append_nil, List.length_nil] at h
  exact h

unseal pack_data packList unpack_data unpackList get_byte_length byteLengthList in
theorem c2_witness :
    ∃ out, unpack_data libsI [44, 1]
        (Json.obj [("data", Json.num 300), ("type", Json.str "u16")]) 0 =
        Except.ok out ∧
      get_byte_length out = Except.ok [44, 1].length :=
  c2_length_agreement libsI [] 1 _ [44, 1]
    (GoodValue.scalar _ "u16" 300 2 (by decide) rfl rfl (Or.inr (Or.inl ⟨rfl, rfl⟩))
      (by decide) (by decide) (by decide))
    rfl

unseal pack_data packList unpack_data unpackList in
theorem c2_counterexample :
    pack_data libsI 2 (Json.obj [("data", Json.str "0x01"), ("size", Json.num 1),
      ("type", Json.str "bytes")]) [] = some (Except.ok [1]) ∧
    unpack_data libsI [1] (Json.obj [("data", Json.str "0x01"), ("size", Json.num 1),
      ("type", Json.str "bytes")]) 0 = Except.error "Missing Size in bytes schema" :=
  ⟨rfl, rfl⟩
